import Mathlib

/-!
# Verification of the diagram-loading and patch-extraction subsystem

Shallow embedding of `src/datasets/diagram_offline.py` (class `DiagramOffline`).

Modelling conventions:
* Python floats are modelled as rationals (`ℚ`): every quantity the claims touch
  is produced by exact arithmetic on the inputs, never by transcendental functions.
* Python integers are modelled as `ℤ`; Python sequence indexing (negative wrap,
  `IndexError` beyond `-len`) and slicing (clamping) are modelled by `pyGet` and
  `pySlice` below.
* Fallible Python code (statements that can raise) is modelled in `Except String`;
  the error string names the Python exception kind.
* The shapely geometry collaborators (`LineString.intersects`, `Polygon.contains`)
  are external library calls; they are modelled as an abstract geometry oracle
  (`ShapelyGeom`) keyed by the constructor data (vertex lists) of the geometry
  objects, which is exactly the data the source passes to shapely.
* The global `settings` collaborator is modelled as an explicit `Settings` record
  argument.
-/

namespace DiagramOfflineModel

/-! ## Python sequence semantics -/

/-- Python indexing `l[i]` on a sequence: indices in `[0, len)` are direct,
indices in `[-len, -1]` wrap from the end, anything else is an `IndexError`
(modelled as `none`). -/
def pyGet {α : Type} (l : List α) (i : ℤ) : Option α :=
  if 0 ≤ i ∧ i < l.length then l.get? i.toNat
  else if -(l.length : ℤ) ≤ i ∧ i < 0 then l.get? (i + l.length).toNat
  else none

/-- Python indexing as a fallible computation (`IndexError` as error). -/
def pyGetE {α : Type} (l : List α) (i : ℤ) : Except String α :=
  match pyGet l i with
  | some v => Except.ok v
  | none => Except.error "IndexError: index out of range"

/-- Total read of `l[i]` with default `0`; used only to *state* values that
`pyGet` is separately proved to return. -/
def axv (l : List ℚ) (i : ℤ) : ℚ := (pyGet l i).getD 0

/-- Python `range(start, stop, step)` for a positive step: the arithmetic
progression `start, start+step, ...` strictly below `stop`.  (All `range` calls
in the source have positive step whenever they are reached with the parameter
ranges the claims quantify over.) -/
def pyRange (start stop step : ℤ) : List ℤ :=
  if 0 < step ∧ start < stop then
    (List.range (((stop - start - 1).toNat / step.toNat) + 1)).map
      (fun (k : ℕ) => start + (k : ℤ) * step)
  else []

/-- One bound of a Python slice `l[s:e]`: negative values wrap by the length,
then the result is clamped into `[0, len]`. -/
def pySliceIdx (len : ℕ) (i : ℤ) : ℕ :=
  let j := if i < 0 then i + len else i
  if j < 0 then 0 else min j.toNat len

/-- Python slicing `l[s:e]`. -/
def pySlice {α : Type} (l : List α) (s e : ℤ) : List α :=
  (l.take (pySliceIdx l.length e)).drop (pySliceIdx l.length s)

/-- Two-dimensional slicing `m[ys:ye, xs:xe]` of a matrix stored row-major. -/
def slice2 {α : Type} (m : List (List α)) (ys ye xs xe : ℤ) : List (List α) :=
  (pySlice m ys ye).map (fun row => pySlice row xs xe)

/-- The numpy 2-d shape `(rows, cols)`; columns read from the first row (the
matrices the source builds are rectangular). -/
def shape2 {α : Type} (m : List (List α)) : ℕ × ℕ := (m.length, (m.headD []).length)

/-- Python `bool` used as an `int` (as in `settings.use_ewma * 3`). -/
def pyBool (b : Bool) : ℤ := if b then 1 else 0

/-- Substring test, Python's `pat in s` on strings. -/
def containsSub (s pat : String) : Bool := decide (pat.toList <:+: s.toList)

/-- Python `str.upper()`, modelled characterwise.  (Lean core's
`String.toUpper` goes through `String.mapAux`, which the kernel cannot
reduce; this characterwise map agrees with it on the ASCII names the label
export uses and keeps the embedding executable in proofs.) -/
def pyUpper (s : String) : String := String.mk (s.data.map Char.toUpper)

/-! ## Exception-propagating iteration

The source's `for` loops propagate any raised exception; these two helpers are
the corresponding `Except`-monad iteration schemes. -/

/-- Map a fallible function over a list, stopping at the first error. -/
def exceptMapM {α β : Type} (f : α → Except String β) : List α → Except String (List β)
  | [] => Except.ok []
  | a :: rest =>
    match f a with
    | Except.error e => Except.error e
    | Except.ok b =>
      match exceptMapM f rest with
      | Except.error e => Except.error e
      | Except.ok bs => Except.ok (b :: bs)

/-- Fold a fallible step over a list, stopping at the first error. -/
def exceptFoldl {α β : Type} (f : β → α → Except String β) : β → List α → Except String β
  | b, [] => Except.ok b
  | b, a :: rest =>
    match f b a with
    | Except.error e => Except.error e
    | Except.ok b2 => exceptFoldl f b2 rest

/-! ## Data model -/

/-- Modelled from the spec: `ChargeRegime` is defined in
`classes/data_structures.py`, which is not among the sources; the spec says it
is "an enumerated tag (including an explicit UNKNOWN sentinel) parsed from a
string label".  The concrete electron-count constructors and their string
labels stand for the repository's actual ones; no claim depends on the exact
spelling of the labels, only on recognized-vs-unrecognized. -/
inductive ChargeRegime
  | UNKNOWN
  | ELECTRON_0
  | ELECTRON_1
  | ELECTRON_2
  | ELECTRON_3
  | ELECTRON_4_PLUS
deriving DecidableEq

/-- Modelled from the spec: parsing a charge-regime name string into the
enumeration (`ChargeRegime(area['name'])` in the source); an unrecognized
string raises `ValueError` in Python, modelled as `none`. -/
def ChargeRegime.ofString (s : String) : Option ChargeRegime :=
  if s = "0_electron" then some ChargeRegime.ELECTRON_0
  else if s = "1_electron" then some ChargeRegime.ELECTRON_1
  else if s = "2_electron" then some ChargeRegime.ELECTRON_2
  else if s = "3_electron" then some ChargeRegime.ELECTRON_3
  else if s = "4_electron" then some ChargeRegime.ELECTRON_4_PLUS
  else none

deriving instance DecidableEq for Except

/-- A shapely `LineString`, identified by its constructor vertex list (volt
space). -/
structure LineString where
  points : List (ℚ × ℚ)
deriving DecidableEq

/-- A shapely `Polygon`, identified by its constructor vertex list (volt
space). -/
structure Polygon where
  points : List (ℚ × ℚ)
deriving DecidableEq

/-- The shapely geometric predicates used by the source, as an abstract oracle:
`lineIntersects pts poly` models `LineString(pts).intersects(Polygon(poly))`
and `polyContains poly pt` models `Polygon(poly).contains(Point(pt))`.  Both
are pure functions of the constructor data, which mirrors shapely's
determinism. -/
structure ShapelyGeom where
  lineIntersects : List (ℚ × ℚ) → List (ℚ × ℚ) → Bool
  polyContains : List (ℚ × ℚ) → ℚ × ℚ → Bool

/-- The fields of `DiagramOffline` that its methods read (`x_axes`, `y_axes`,
`values`, `transition_lines`, `charge_areas`); `values_norm` is omitted, no
claim touches it. -/
structure DiagramOffline where
  file_basename : String
  x_axes : List ℚ
  y_axes : List ℚ
  values : List (List ℚ)
  transition_lines : Option (List LineString)
  charge_areas : Option (List (ChargeRegime × Polygon))
deriving DecidableEq

/-- The external `settings` collaborator (only the options the embedded code
reads). -/
structure Settings where
  use_ewma : Bool
  load_parasitic_lines : Bool
  plot_diagrams : Bool
deriving DecidableEq

/-! ## `DiagramOffline.get_charge` -/

/-- The `for regime, area in charge_areas` loop of `get_charge`: the regime of
the first region whose polygon contains the point, else `UNKNOWN`. -/
def firstRegime (geom : ShapelyGeom) : List (ChargeRegime × Polygon) → ℚ × ℚ → ChargeRegime
  | [], _ => ChargeRegime.UNKNOWN
  | (regime, area) :: rest, point =>
    if geom.polyContains area.points point then regime else firstRegime geom rest point

/-- Embeds `DiagramOffline.get_charge`: axis lookups guarded by `try/except
IndexError` (→ `UNKNOWN`), then the first containing charge area wins;
iterating a `None` region list raises `TypeError`. -/
def get_charge (geom : ShapelyGeom) (d : DiagramOffline) (coord_x coord_y : ℤ) :
    Except String ChargeRegime :=
  match pyGet d.x_axes coord_x, pyGet d.y_axes coord_y with
  | some volt_x, some volt_y =>
    match d.charge_areas with
    | none => Except.error "TypeError: NoneType is not iterable"
    | some areas => Except.ok (firstRegime geom areas (volt_x, volt_y))
  | _, _ => Except.ok ChargeRegime.UNKNOWN

/-! ## `DiagramOffline.get_patches` and `DiagramOffline.is_line_in_patch` -/

/-- The body of the inner (`patch_x`) loop of `DiagramOffline.get_patches`:
one yielded `(patch, label)` pair.  `patch_size_x` is the value already
extended by 3 when `settings.use_ewma` is set, exactly as in the source,
which reuses the mutated variable for the window width and keeps
`label_offset_x + settings.use_ewma * 3` for the label rectangle's low-x
bound. -/
def patchCell (geom : ShapelyGeom) (st : Settings) (d : DiagramOffline)
    (patch_size_x label_offset_x : ℤ) (patch_y patch_size_y : ℤ)
    (start_y_v end_y_v : ℚ) (patch_x : ℤ) : Except String (List (List ℚ) × Bool) := do
  let start_x := patch_x
  let end_x := patch_x + patch_size_x
  let start_x_v ← pyGetE d.x_axes (start_x + label_offset_x + pyBool st.use_ewma * 3)
  let end_x_v ← pyGetE d.x_axes (end_x - label_offset_x)
  let patch_shape := [(start_x_v, start_y_v), (end_x_v, start_y_v),
                      (end_x_v, end_y_v), (start_x_v, end_y_v)]
  -- Extract patch value
  let patch := slice2 d.values patch_y (patch_y + patch_size_y) start_x end_x
  -- Label is True if any line intersects the patch shape
  match d.transition_lines with
  | none => Except.error "TypeError: NoneType is not iterable"
  | some lines =>
    pure (patch, lines.any (fun line => geom.lineIntersects line.points patch_shape))

/-- The body of the outer (`patch_y`) loop of `DiagramOffline.get_patches`:
the volt coordinates of the row are looked up once, then the inner loop runs
over `range(0, diagram_size_x - patch_size_x, patch_size_x - overlap_x)`. -/
def patchRow (geom : ShapelyGeom) (st : Settings) (d : DiagramOffline)
    (patch_size_x patch_size_y overlap_size_x label_offset_x label_offset_y : ℤ)
    (patch_y : ℤ) : Except String (List (List (List ℚ) × Bool)) := do
  let start_y := patch_y
  let end_y := patch_y + patch_size_y
  let start_y_v ← pyGetE d.y_axes (start_y + label_offset_y)
  let end_y_v ← pyGetE d.y_axes (end_y - label_offset_y)
  exceptMapM
    (patchCell geom st d patch_size_x label_offset_x patch_y patch_size_y start_y_v end_y_v)
    (pyRange 0 (((shape2 d.values).2 : ℤ) - patch_size_x) (patch_size_x - overlap_size_x))

/-- Embeds `DiagramOffline.get_patches`: the generator, materialized as the finite
list of `(patch, label)` pairs it yields; an exception raised while iterating
(axis `IndexError`, or `TypeError` from iterating `transition_lines = None`)
is an `Except.error`.  The per-axis window starts come from
`range(0, diagram_size - patch_size, patch_size - overlap)`, where the x-axis
`patch_size_x` has been extended by 3 first when `settings.use_ewma` is
set. -/
def get_patches (geom : ShapelyGeom) (st : Settings) (d : DiagramOffline)
    (patch_size : ℤ × ℤ := (10, 10)) (overlap : ℤ × ℤ := (0, 0))
    (label_offset : ℤ × ℤ := (0, 0)) :
    Except String (List (List (List ℚ) × Bool)) := do
  -- If EWMA is used we need 3 more pixels on the left
  let patch_size_x := if st.use_ewma then patch_size.1 + 3 else patch_size.1
  let rows ← exceptMapM
    (patchRow geom st d patch_size_x patch_size.2 overlap.1 label_offset.1 label_offset.2)
    (pyRange 0 (((shape2 d.values).1 : ℤ) - patch_size.2) (patch_size.2 - overlap.2))
  pure rows.flatten

/-- Embeds `DiagramOffline.is_line_in_patch`: the standalone rectangle-intersection
query. -/
def is_line_in_patch (geom : ShapelyGeom) (d : DiagramOffline)
    (coordinate : ℤ × ℤ) (patch_size : ℤ × ℤ) (offsets : ℤ × ℤ := (0, 0)) :
    Except String Bool := do
  let coord_x := coordinate.1
  let coord_y := coordinate.2
  let size_x := patch_size.1
  let size_y := patch_size.2
  let offset_x := offsets.1
  let offset_y := offsets.2
  let start_x_v ← pyGetE d.x_axes (coord_x + offset_x)
  let start_y_v ← pyGetE d.y_axes (coord_y + offset_y)
  let end_x_v ← pyGetE d.x_axes (coord_x + size_x - offset_x)
  let end_y_v ← pyGetE d.y_axes (coord_y + size_y - offset_y)
  let patch_shape := [(start_x_v, start_y_v), (end_x_v, start_y_v),
                      (end_x_v, end_y_v), (start_x_v, end_y_v)]
  match d.transition_lines with
  | none => Except.error "TypeError: NoneType is not iterable"
  | some lines =>
    pure (lines.any (fun line => geom.lineIntersects line.points patch_shape))

/-! ## `DiagramOffline._load_interpolated_csv` -/

/-- Embeds `DiagramOffline._load_interpolated_csv`, over the already-parsed numeric
table (`np.loadtxt` output): row 0 is the `(x_start, y_start, step)` header,
the remaining rows are the value matrix, optionally flipped vertically, and
the axes are arithmetic progressions over the resulting shape.  A table
without a header row (or a header shorter than 3 cells) raises. -/
def load_interpolated_csv (content : List (List ℚ)) (invert_y_axis : Bool := true) :
    Except String (List ℚ × List ℚ × List (List ℚ)) := do
  let row0 := content.headD []
  let x_start ← pyGetE row0 0
  let y_start ← pyGetE row0 1
  let step ← pyGetE row0 2
  -- Remove the information row
  let values0 := content.drop 1
  let values := if invert_y_axis then values0.reverse else values0
  -- Reconstruct the axes
  let x := (List.range (shape2 values).2).map (fun (i : ℕ) => (i : ℚ) * step + x_start)
  let y := (List.range (shape2 values).1).map (fun (j : ℕ) => (j : ℚ) * step + y_start)
  pure (x, y, values)

/-! ## Coordinate mapper and annotation loaders -/

/-- Modelled from the spec: `Diagram._coord_to_volt` lives in the base-class
file `datasets/diagram.py`, which is not among the sources.  Per the spec,
each pixel coordinate is converted by `volt = pixel * pixel_size + axis_min`
(or the axis-max-relative formula `axis_max - pixel * pixel_size` when
`invert` is set), and any result within `snap * pixel_size` of either axis
extreme is clamped exactly to that extreme. -/
def coord_to_volt (coords : List ℚ) (min_v max_v : ℚ) (pixel_size : ℚ)
    (snap : ℚ) (invert : Bool := false) : List ℚ :=
  coords.map (fun p =>
    let v := if invert then max_v - p * pixel_size else p * pixel_size + min_v
    if |v - min_v| ≤ snap * pixel_size then min_v
    else if |v - max_v| ≤ snap * pixel_size then max_v
    else v)

/-- One raw annotation record from the label export: a name tag plus the
pixel-space point list under its `line` or `polygon` key (whichever the
consumer reads). -/
structure ObjRecord where
  name : String
  line : List (ℚ × ℚ)
  polygon : List (ℚ × ℚ)
deriving DecidableEq

/-- Embeds `DiagramOffline._load_lines_annotations`: each record's points are mapped
to volts per axis (`y` with `invert=True`) and assembled into a `LineString`
in input order.  The `x[0]`/`x[-1]` axis reads raise on an empty axis. -/
def load_lines_annotations (lines : List ObjRecord) (x y : List ℚ)
    (pixel_size : ℚ) (snap : ℚ := 1) : Except String (List LineString) :=
  exceptMapM (fun line => do
    let x0 ← pyGetE x 0
    let xLast ← pyGetE x (-1)
    let line_x := coord_to_volt (line.line.map Prod.fst) x0 xLast pixel_size snap false
    let y0 ← pyGetE y 0
    let yLast ← pyGetE y (-1)
    let line_y := coord_to_volt (line.line.map Prod.snd) y0 yLast pixel_size snap true
    pure (LineString.mk (List.zip line_x line_y))) lines

/-- Embeds `DiagramOffline._load_charge_annotations`: polygons mapped like lines, and
the record's name parsed as a `ChargeRegime` (an unrecognized name raises
`ValueError`); output order is input order. -/
def load_charge_annotations (charge_areas : List ObjRecord) (x y : List ℚ)
    (pixel_size : ℚ) (snap : ℚ := 1) : Except String (List (ChargeRegime × Polygon)) :=
  exceptMapM (fun area => do
    let x0 ← pyGetE x 0
    let xLast ← pyGetE x (-1)
    let area_x := coord_to_volt (area.polygon.map Prod.fst) x0 xLast pixel_size snap false
    let y0 ← pyGetE y 0
    let yLast ← pyGetE y (-1)
    let area_y := coord_to_volt (area.polygon.map Prod.snd) y0 yLast pixel_size snap true
    match ChargeRegime.ofString area.name with
    | none => Except.error "ValueError: not a valid ChargeRegime"
    | some regime => pure (regime, Polygon.mk (List.zip area_x area_y))) charge_areas

/-! ## `DiagramOffline.load_diagrams`

The loader consumes (a) the ndjson label index and (b) the zip archive.  Both
external inputs are modelled at the granularity at which the source reads
them: the label file as the list of its parsed records, the archive as a
finite map from `(pixel_size * 1000, research_group)` to the list of grid
files of that subdirectory, each grid file carrying its base name (after the
`Path(...).stem` extension strip) and its decompressed, `np.loadtxt`-parsed
numeric table.  The text the claims quantify over (filter cascade, skip
counters, the one fatal error) is insensitive to this granularity. -/

/-- One classification entry of a project's label record (`name` plus the
payloads the source reads: `text_answer.content` already parsed as a number,
and `radio_answer.name`). -/
structure Classification where
  name : String
  text_answer : ℚ
  radio_answer : String
deriving DecidableEq

/-- The `labels[0].annotations` sub-record of a project. -/
structure Annotations where
  classifications : List Classification
  objects : List ObjRecord
deriving DecidableEq

/-- One entry of `projects.values()`. -/
structure Project where
  name : String
  annotations : Annotations
deriving DecidableEq

/-- One parsed line of the ndjson label index. -/
structure LabelRecord where
  external_id : String
  projects : List Project
deriving DecidableEq

/-- One grid file of the archive subdirectory. -/
structure GridFile where
  basename : String
  content : List (List ℚ)
deriving DecidableEq

/-- Python-dict lookup on an insertion list where later inserts overwrite
earlier ones (as when the label file is folded into `labels[id] = row`). -/
def dictLookup {α : Type} (l : List (String × α)) (k : String) : Option α :=
  (l.reverse.find? (fun p => p.1 = k)).map Prod.snd

/-- Lookup of the archive subdirectory keyed by pixel size and group. -/
def zipLookup (dirs : List ((ℚ × String) × List GridFile)) (key : ℚ × String) :
    Option (List GridFile) :=
  (dirs.find? (fun p => p.1 = key)).map Prod.snd

/-- The whitelist skip test `white_list and not (file_basename in white_list)`:
Python truthiness makes both `None` and the empty list inactive. -/
def whiteListExcludes (white_list : Option (List String)) (base : String) : Bool :=
  match white_list with
  | none => false
  | some l => !l.isEmpty && !(l.contains base)

/-- The running totals of `load_diagrams` (result list plus the three skip
counters the source logs). -/
structure LoadAcc where
  diagrams : List DiagramOffline
  nb_no_label : ℕ
  nb_excluded : ℕ
  nb_filtered : ℕ
deriving DecidableEq

/-- The `load_areas` tail of the loop body of `load_diagrams` (everything
after the transition lines have been settled): charge annotations are loaded
when requested (an empty result counts as unlabeled), then the
`DiagramOffline` is built and appended. -/
def processAreas (acc : LoadAcc) (load_areas : Bool) (objects : List ObjRecord)
    (x y : List ℚ) (label_pixel_size : ℚ) (file_basename : String)
    (values : List (List ℚ)) (transition_lines : Option (List LineString)) :
    Except String LoadAcc :=
  if load_areas then
    match load_charge_annotations
        (objects.filter (fun o => containsSub o.name "electron"))
        x y label_pixel_size 1 with
    | Except.error e => Except.error e
    | Except.ok charge_area =>
      if charge_area.length = 0 then
        Except.ok { acc with nb_no_label := acc.nb_no_label + 1 }
      else
        Except.ok { acc with diagrams := acc.diagrams ++
          [DiagramOffline.mk file_basename x y values transition_lines
            (some charge_area)] }
  else
    Except.ok { acc with diagrams := acc.diagrams ++
      [DiagramOffline.mk file_basename x y values transition_lines none] }

/-- The body of the `for diagram_name in zip_dir.iterdir()` loop of
`load_diagrams`: the filter cascade (whitelist → label-record lookup → project
lookup → classification extraction → dot-count filter), then grid decoding and
annotation loading, updating the accumulated result.  `continue` paths return
the updated accumulator; uncaught Python exceptions are `Except.error`. -/
def processOne (st : Settings) (labels : List (String × LabelRecord))
    (single_dot load_lines load_areas : Bool) (white_list : Option (List String))
    (acc : LoadAcc) (gf : GridFile) : Except String LoadAcc :=
  let file_basename := gf.basename
  if whiteListExcludes white_list file_basename then
    Except.ok { acc with nb_excluded := acc.nb_excluded + 1 }
  else
    match dictLookup labels (file_basename ++ ".png") with
    | none => Except.ok { acc with nb_no_label := acc.nb_no_label + 1 }
    | some label_record =>
      match label_record.projects.find? (fun p => pyUpper p.name = "QDSD") with
      | none => Except.ok { acc with nb_no_label := acc.nb_no_label + 1 }
      | some project =>
        let current_labels := project.annotations
        match current_labels.classifications.find? (fun c => c.name = "pixel_size_volt"),
              current_labels.classifications.find? (fun c => c.name = "nb_dot") with
        | some ps_class, some nd_class =>
          let label_pixel_size := ps_class.text_answer
          let is_single_dot := nd_class.radio_answer = "single"
          if single_dot ≠ is_single_dot then
            Except.ok { acc with nb_filtered := acc.nb_filtered + 1 }
          else
            (match load_interpolated_csv gf.content true with
             | Except.error e => Except.error e
             | Except.ok (x, y, values) =>
               let line_labels := if st.load_parasitic_lines
                 then ["line_1", "line_2", "line_parasite"] else ["line_1", "line_2"]
               if load_lines then
                 match load_lines_annotations
                     (current_labels.objects.filter (fun o => line_labels.contains o.name))
                     x y label_pixel_size 1 with
                 | Except.error e => Except.error e
                 | Except.ok transition_lines =>
                   if transition_lines.length = 0 then
                     Except.ok { acc with nb_no_label := acc.nb_no_label + 1 }
                   else
                     processAreas acc load_areas current_labels.objects x y
                       label_pixel_size file_basename values (some transition_lines)
               else
                 processAreas acc load_areas current_labels.objects x y
                   label_pixel_size file_basename values none)
        | _, _ => Except.ok { acc with nb_no_label := acc.nb_no_label + 1 }

/-- Embeds `DiagramOffline.load_diagrams`: builds the label dictionary, resolves the
archive subdirectory (raising `ValueError` when it is absent), then folds the
per-file cascade over the subdirectory's files.  The returned `LoadAcc` also
exposes the three skip counters the source reports through its logger. -/
def load_diagrams (st : Settings) (pixel_size : ℚ) (research_group : String)
    (diagrams_zip : List ((ℚ × String) × List GridFile)) (labels_file : List LabelRecord)
    (single_dot : Bool := true) (load_lines : Bool := true) (load_areas : Bool := true)
    (white_list : Option (List String) := none) : Except String LoadAcc :=
  let labels := labels_file.map (fun row => (row.external_id, row))
  match zipLookup diagrams_zip (pixel_size * 1000, research_group) with
  | none => Except.error "ValueError: Folder not found in the zip file"
  | some files =>
    exceptFoldl (processOne st labels single_dot load_lines load_areas white_list)
      (LoadAcc.mk [] 0 0 0) files

/-! ## Derived views used to state the behaviour of `get_patches`

These definitions re-express the windows `get_patches` walks; the theorems
below prove that `get_patches` produces exactly these values.  They are
statement vocabulary, derived from the source expressions. -/

/-- The x-extension applied when the EWMA setting is on. -/
def ewma3 (st : Settings) : ℤ := if st.use_ewma then 3 else 0

/-- The x starts of the sliding window (`psxE` is the possibly-extended
width). -/
def xStarts (d : DiagramOffline) (psxE ovx : ℤ) : List ℤ :=
  pyRange 0 (((shape2 d.values).2 : ℤ) - psxE) (psxE - ovx)

/-- The y starts of the sliding window. -/
def yStarts (d : DiagramOffline) (psy ovy : ℤ) : List ℤ :=
  pyRange 0 (((shape2 d.values).1 : ℤ) - psy) (psy - ovy)

/-- The volt-space label rectangle spanned by axis values at the given pixel
bounds (corner order as constructed by the source). -/
def labelRect (d : DiagramOffline) (sx ex sy ey : ℤ) : List (ℚ × ℚ) :=
  [(axv d.x_axes sx, axv d.y_axes sy), (axv d.x_axes ex, axv d.y_axes sy),
   (axv d.x_axes ex, axv d.y_axes ey), (axv d.x_axes sx, axv d.y_axes ey)]

/-- The `(patch, label)` pair of the window with top-left pixel `(px, py)`:
the value slice of the full (possibly extended) window, and the
any-line-intersects test on the label rectangle, whose low-x bound skips the
`e3` extension pixels. -/
def patchAt (geom : ShapelyGeom) (d : DiagramOffline) (ls : List LineString)
    (psxE psy offx offy e3 : ℤ) (py px : ℤ) : List (List ℚ) × Bool :=
  (slice2 d.values py (py + psy) px (px + psxE),
   ls.any (fun line => geom.lineIntersects line.points
     (labelRect d (px + offx + e3) (px + psxE - offx) (py + offy) (py + psy - offy))))

/-- All windows of `get_patches`, in yield order (y-major). -/
def patchGrid (geom : ShapelyGeom) (d : DiagramOffline) (ls : List LineString)
    (psxE psy ovx ovy offx offy e3 : ℤ) : List (List (List ℚ) × Bool) :=
  ((yStarts d psy ovy).map (fun py =>
    (xStarts d psxE ovx).map (patchAt geom d ls psxE psy offx offy e3 py))).flatten

/-! ## Concrete instances for witnesses and counterexamples -/

/-- Geometry oracle where every intersection/containment test is `true`
(e.g. a huge line and a huge region). -/
def geomAll : ShapelyGeom := ShapelyGeom.mk (fun _ _ => true) (fun _ _ => true)

/-- Geometry oracle of a region containing exactly the point `(1, 1)` and
intersecting nothing. -/
def geomPt : ShapelyGeom :=
  ShapelyGeom.mk (fun _ _ => false) (fun _ pt => decide (pt = ((1 : ℚ), (1 : ℚ))))

/-- Settings with the EWMA extension off. -/
def stOff : Settings := Settings.mk false false false

/-- Settings with the EWMA extension on. -/
def stOn : Settings := Settings.mk true false false

/-- A 20 × 20 diagram of zeros with unit-spaced axes and an (empty)
transition-line list. -/
def d20 : DiagramOffline :=
  DiagramOffline.mk "d20"
    ((List.range 20).map (fun i => (i : ℚ)))
    ((List.range 20).map (fun i => (i : ℚ)))
    (List.replicate 20 (List.replicate 20 (0 : ℚ)))
    (some []) none

/-- A 2 × 2 diagram whose single charge region contains the volt point
`(1, 1)` — the top-right pixel, which Python index `-1` wraps to. -/
def dNeg : DiagramOffline :=
  DiagramOffline.mk "dNeg" [0, 1] [0, 1] [[0, 0], [0, 0]] none
    (some [(ChargeRegime.ELECTRON_1, Polygon.mk [(1, 1), (1, 0), (0, 1)])])

/-- A 2 × 2 diagram constructed with `charge_areas = None`. -/
def dNone : DiagramOffline :=
  DiagramOffline.mk "dNone" [0, 1] [0, 1] [[0, 0], [0, 0]] none none

/-- A label record whose QDSD project carries full classifications plus both
a line annotation (name `line_1`, not a charge-regime name) and an
electron-tagged annotation. -/
def recLines : LabelRecord :=
  LabelRecord.mk "a.png"
    [Project.mk "QDSD" (Annotations.mk
      [Classification.mk "pixel_size_volt" 1 "", Classification.mk "nb_dot" 0 "single"]
      [ObjRecord.mk "line_1" [((0 : ℚ), (0 : ℚ))] [],
       ObjRecord.mk "1_electron" [] [((0 : ℚ), (0 : ℚ))]])]

/-- A label record whose QDSD project has a `nb_dot` classification but no
`pixel_size_volt` classification. -/
def recNoPix : LabelRecord :=
  LabelRecord.mk "a.png"
    [Project.mk "qdsd" (Annotations.mk [Classification.mk "nb_dot" 0 "single"] [])]

/-- A well-formed grid file named `a`. -/
def gfA : GridFile := GridFile.mk "a" [[0, 0, 1], [1, 2, 3], [4, 5, 6]]

/-- Geometry oracle whose containment test recognizes exactly the polygon
with vertex list `[(7, 7)]`. -/
def geomSel : ShapelyGeom :=
  ShapelyGeom.mk (fun _ _ => false) (fun poly _ => decide (poly = [((7 : ℚ), (7 : ℚ))]))

/-- A 2 × 2 diagram with two overlapping charge regions recognized by
`geomSel` (the second and third entries share a polygon). -/
def dOrder : DiagramOffline :=
  DiagramOffline.mk "dOrder" [0, 1] [0, 1] [[0, 0], [0, 0]] none
    (some [(ChargeRegime.ELECTRON_0, Polygon.mk [(5, 5)]),
           (ChargeRegime.ELECTRON_1, Polygon.mk [(7, 7)]),
           (ChargeRegime.ELECTRON_2, Polygon.mk [(7, 7)])])

/-! ## Basic lemmas about the Python-semantics helpers -/

theorem ok_bind {α β : Type} (v : α) (k : α → Except String β) :
    (Except.ok v >>= k) = k v := rfl

theorem pure_eq_ok {α : Type} (v : α) : (pure v : Except String α) = Except.ok v := rfl

theorem pyGet_pos_some (l : List ℚ) (i : ℤ) (h0 : 0 ≤ i) (h1 : i < l.length) :
    pyGet l i = some (axv l i) := by
  have hn : i.toNat < l.length := by omega
  unfold axv pyGet
  rw [if_pos ⟨h0, h1⟩, List.get?_eq_get hn]
  rfl

theorem pyGet_neg_some (l : List ℚ) (i : ℤ) (h0 : -(l.length : ℤ) ≤ i) (h1 : i < 0) :
    pyGet l i = some (axv l i) := by
  have hn : (i + l.length).toNat < l.length := by omega
  unfold axv pyGet
  rw [if_neg (by omega), if_pos ⟨h0, h1⟩, List.get?_eq_get hn]
  rfl

theorem pyGet_none (l : List ℚ) (i : ℤ) (h : i < -(l.length : ℤ) ∨ (l.length : ℤ) ≤ i) :
    pyGet l i = none := by
  unfold pyGet
  rw [if_neg (by omega), if_neg (by omega)]

theorem pyGetE_pos (l : List ℚ) (i : ℤ) (h0 : 0 ≤ i) (h1 : i < l.length) :
    pyGetE l i = Except.ok (axv l i) := by
  unfold pyGetE
  rw [pyGet_pos_some l i h0 h1]

theorem pyGetE_neg (l : List ℚ) (i : ℤ) (h0 : -(l.length : ℤ) ≤ i) (h1 : i < 0) :
    pyGetE l i = Except.ok (axv l i) := by
  unfold pyGetE
  rw [pyGet_neg_some l i h0 h1]

theorem pyRange_mem (stop step a : ℤ) (ha : a ∈ pyRange 0 stop step) :
    0 ≤ a ∧ a < stop := by
  unfold pyRange at ha
  by_cases hc : 0 < step ∧ (0 : ℤ) < stop
  · rw [if_pos hc] at ha
    simp only [List.mem_map, List.mem_range] at ha
    obtain ⟨k, hk, rfl⟩ := ha
    have hstep : 0 < step := hc.1
    have hstop : 0 < stop := hc.2
    have hk' : k ≤ (stop - 0 - 1).toNat / step.toNat := Nat.lt_succ_iff.mp hk
    have hmul : k * step.toNat ≤ (stop - 0 - 1).toNat :=
      (Nat.le_div_iff_mul_le (by omega)).mp hk'
    have hmul' : (k : ℤ) * step ≤ stop - 1 := by
      have := (Int.ofNat_le).mpr hmul
      push_cast at this
      rw [Int.toNat_of_nonneg (by omega), Int.toNat_of_nonneg (by omega)] at this
      linarith
    constructor
    · have : (0 : ℤ) ≤ (k : ℤ) * step := mul_nonneg (by positivity) (by omega)
      omega
    · omega
  · rw [if_neg hc] at ha
    simp at ha

theorem pyRange_length (stop step : ℤ) :
    (pyRange 0 stop step).length =
      if 0 < step ∧ (0 : ℤ) < stop then (stop - 1).toNat / step.toNat + 1 else 0 := by
  unfold pyRange
  by_cases hc : 0 < step ∧ (0 : ℤ) < stop
  · rw [if_pos hc, if_pos hc, List.length_map, List.length_range]
    norm_num
  · rw [if_neg hc, if_neg hc]
    rfl

theorem exceptMapM_congr_ok {α β : Type} (f : α → Except String β) (g : α → β)
    (l : List α) (h : ∀ a ∈ l, f a = Except.ok (g a)) :
    exceptMapM f l = Except.ok (l.map g) := by
  induction l with
  | nil => rfl
  | cons a rest ih =>
    unfold exceptMapM
    rw [h a (by simp), ih (fun x hx => h x (by simp [hx]))]
    rfl

theorem exceptMapM_ok_spec {α β : Type} (f : α → Except String β) :
    ∀ (as : List α) (bs : List β), exceptMapM f as = Except.ok bs →
      as.length = bs.length ∧
      ∀ i a, as.get? i = some a → ∃ b, f a = Except.ok b ∧ bs.get? i = some b := by
  intro as
  induction as with
  | nil =>
    intro bs h
    unfold exceptMapM at h
    cases h
    simp
  | cons a rest ih =>
    intro bs h
    unfold exceptMapM at h
    cases hfa : f a with
    | error e => rw [hfa] at h; cases h
    | ok b =>
      rw [hfa] at h
      cases hrest : exceptMapM f rest with
      | error e => rw [hrest] at h; cases h
      | ok bs2 =>
        rw [hrest] at h
        cases h
        obtain ⟨hlen, hget⟩ := ih bs2 hrest
        refine ⟨by simp [hlen], ?_⟩
        intro i x hx
        cases i with
        | zero =>
          simp only [List.get?_cons_zero, Option.some.injEq] at hx
          subst hx
          exact ⟨b, hfa, by simp⟩
        | succ n =>
          simp only [List.get?_cons_succ] at hx ⊢
          exact hget n x hx

theorem pySliceIdx_of_nonneg (len : ℕ) (i : ℤ) (h0 : 0 ≤ i) (h1 : i ≤ len) :
    pySliceIdx len i = i.toNat := by
  unfold pySliceIdx
  simp only [if_neg (show ¬i < 0 by omega)]
  exact Nat.min_eq_left (by omega)

theorem pySlice_length {α : Type} (l : List α) (s e : ℤ)
    (h0 : 0 ≤ s) (hse : s ≤ e) (he : e ≤ l.length) :
    (pySlice l s e).length = (e - s).toNat := by
  unfold pySlice
  rw [pySliceIdx_of_nonneg _ _ (by omega) he, pySliceIdx_of_nonneg _ _ h0 (by omega),
      List.length_drop, List.length_take]
  omega

theorem pySlice_subset {α : Type} (l : List α) (s e : ℤ) :
    ∀ a ∈ pySlice l s e, a ∈ l := by
  intro a ha
  unfold pySlice at ha
  exact List.take_subset _ _ (List.drop_subset _ _ ha)

theorem slice2_shape {α : Type} (m : List (List α)) (dx : ℕ) (ys ye xs xe : ℤ)
    (hrect : ∀ row ∈ m, row.length = dx)
    (hy0 : 0 ≤ ys) (hyy : ys < ye) (hye : ye ≤ m.length)
    (hx0 : 0 ≤ xs) (hxx : xs ≤ xe) (hxe : xe ≤ dx) :
    shape2 (slice2 m ys ye xs xe) = ((ye - ys).toNat, (xe - xs).toNat) := by
  have hlen : (pySlice m ys ye).length = (ye - ys).toNat :=
    pySlice_length m ys ye hy0 (by omega) hye
  cases hr : pySlice m ys ye with
  | nil =>
    exfalso
    rw [hr] at hlen
    simp at hlen
    omega
  | cons r rs =>
    have hrm : r ∈ m := pySlice_subset m ys ye r (hr ▸ List.mem_cons_self r rs)
    have hrlen : r.length = dx := hrect r hrm
    unfold slice2 shape2
    rw [hr]
    simp only [List.map_cons, List.length_cons, List.length_map, List.headD_cons,
      Prod.mk.injEq]
    constructor
    · rw [hr] at hlen
      simp only [List.length_cons] at hlen
      omega
    · rw [pySlice_length r xs xe hx0 hxx (by omega)]

/-! ## The success form of `get_patches` -/

theorem pyBool_nonneg (b : Bool) : 0 ≤ pyBool b := by
  unfold pyBool; cases b <;> norm_num

theorem ewma3_nonneg (st : Settings) : 0 ≤ ewma3 st := by
  unfold ewma3; cases st.use_ewma <;> norm_num

theorem pyBool_mul3 (st : Settings) : pyBool st.use_ewma * 3 = ewma3 st := by
  unfold pyBool ewma3; cases st.use_ewma <;> norm_num

theorem patchCell_ok (geom : ShapelyGeom) (st : Settings) (d : DiagramOffline)
    (psxE offx psy offy py px : ℤ) (ls : List LineString)
    (hlines : d.transition_lines = some ls)
    (h1 : 0 ≤ px + offx + pyBool st.use_ewma * 3)
    (h2 : px + offx + pyBool st.use_ewma * 3 < d.x_axes.length)
    (h3 : 0 ≤ px + psxE - offx) (h4 : px + psxE - offx < d.x_axes.length) :
    patchCell geom st d psxE offx py psy
        (axv d.y_axes (py + offy)) (axv d.y_axes (py + psy - offy)) px =
      Except.ok (patchAt geom d ls psxE psy offx offy (pyBool st.use_ewma * 3) py px) := by
  unfold patchCell
  simp only [pyGetE_pos _ _ h1 h2, pyGetE_pos _ _ h3 h4, ok_bind, hlines]
  rfl

theorem patchRow_ok (geom : ShapelyGeom) (st : Settings) (d : DiagramOffline)
    (psy ovx offx offy psxE py : ℤ) (ls : List LineString)
    (hlines : d.transition_lines = some ls)
    (hy1 : 0 ≤ py + offy) (hy2 : py + offy < d.y_axes.length)
    (hy3 : 0 ≤ py + psy - offy) (hy4 : py + psy - offy < d.y_axes.length)
    (hxlen : ((shape2 d.values).2 : ℤ) ≤ d.x_axes.length)
    (hoffx0 : 0 ≤ offx) (hoffxE : offx + pyBool st.use_ewma * 3 ≤ psxE) :
    patchRow geom st d psxE psy ovx offx offy py =
      Except.ok ((xStarts d psxE ovx).map
        (patchAt geom d ls psxE psy offx offy (pyBool st.use_ewma * 3) py)) := by
  have he3 : 0 ≤ pyBool st.use_ewma * 3 := by
    have := pyBool_nonneg st.use_ewma
    omega
  unfold patchRow
  simp only [pyGetE_pos _ _ hy1 hy2, pyGetE_pos _ _ hy3 hy4, ok_bind]
  unfold xStarts
  apply exceptMapM_congr_ok
  intro px hpx
  obtain ⟨hpx0, hpx1⟩ := pyRange_mem _ _ _ hpx
  exact patchCell_ok geom st d psxE offx psy offy py px ls hlines
    (by omega) (by omega) (by omega) (by omega)

theorem get_patches_ok (geom : ShapelyGeom) (st : Settings) (d : DiagramOffline)
    (psx psy ovx ovy offx offy : ℤ) (ls : List LineString)
    (hlines : d.transition_lines = some ls)
    (hoffx0 : 0 ≤ offx) (hoffx : offx ≤ psx)
    (hoffy0 : 0 ≤ offy) (hoffy : offy ≤ psy)
    (hx : ((shape2 d.values).2 : ℤ) ≤ d.x_axes.length)
    (hy : ((shape2 d.values).1 : ℤ) ≤ d.y_axes.length) :
    get_patches geom st d (psx, psy) (ovx, ovy) (offx, offy) =
      Except.ok (patchGrid geom d ls (psx + ewma3 st) psy ovx ovy offx offy (ewma3 st)) := by
  have he3 : 0 ≤ ewma3 st := ewma3_nonneg st
  have hps : (if st.use_ewma then psx + 3 else psx) = psx + ewma3 st := by
    unfold ewma3; cases st.use_ewma <;> norm_num
  show (do
    let rows ← exceptMapM
      (patchRow geom st d (if st.use_ewma then psx + 3 else psx) psy ovx offx offy)
      (pyRange 0 (((shape2 d.values).1 : ℤ) - psy) (psy - ovy))
    pure rows.flatten) = _
  rw [hps]
  have houter : exceptMapM
      (patchRow geom st d (psx + ewma3 st) psy ovx offx offy)
      (pyRange 0 (((shape2 d.values).1 : ℤ) - psy) (psy - ovy)) =
      Except.ok ((yStarts d psy ovy).map (fun py =>
        (xStarts d (psx + ewma3 st) ovx).map
          (patchAt geom d ls (psx + ewma3 st) psy offx offy (ewma3 st) py))) := by
    unfold yStarts
    apply exceptMapM_congr_ok
    intro py hpy
    obtain ⟨hpy0, hpy1⟩ := pyRange_mem _ _ _ hpy
    have hrow := patchRow_ok geom st d psy ovx offx offy (psx + ewma3 st) py ls
      hlines (by omega) (by omega) (by omega) (by omega) hx hoffx0
      (by rw [pyBool_mul3]; omega)
    rw [pyBool_mul3] at hrow
    exact hrow
  rw [houter, ok_bind]
  rfl

theorem flatten_const_length {α : Type} (rows : List (List α)) (c : ℕ)
    (h : ∀ r ∈ rows, r.length = c) : rows.flatten.length = rows.length * c := by
  induction rows with
  | nil => simp
  | cons r rs ih =>
    simp only [List.flatten_cons, List.length_append, List.length_cons,
      h r (by simp), ih (fun x hx => h x (by simp [hx]))]
    ring

theorem patchGrid_length (geom : ShapelyGeom) (d : DiagramOffline) (ls : List LineString)
    (psxE psy ovx ovy offx offy e3 : ℤ) :
    (patchGrid geom d ls psxE psy ovx ovy offx offy e3).length =
      (yStarts d psy ovy).length * (xStarts d psxE ovx).length := by
  unfold patchGrid
  rw [flatten_const_length _ (xStarts d psxE ovx).length, List.length_map]
  intro r hr
  rw [List.mem_map] at hr
  obtain ⟨py, hpy, rfl⟩ := hr
  rw [List.length_map]

theorem patchGrid_mem_shape (geom : ShapelyGeom) (d : DiagramOffline) (ls : List LineString)
    (psxE psy ovx ovy offx offy e3 : ℤ) (dy dx : ℕ)
    (hshape : shape2 d.values = (dy, dx))
    (hrect : ∀ row ∈ d.values, row.length = dx)
    (hpsy : 0 < psy) (hpsxE : 0 < psxE) :
    ∀ pb ∈ patchGrid geom d ls psxE psy ovx ovy offx offy e3,
      shape2 pb.1 = (psy.toNat, psxE.toNat) := by
  intro pb hpb
  unfold patchGrid at hpb
  rw [List.mem_flatten] at hpb
  obtain ⟨row, hrow, hpbrow⟩ := hpb
  rw [List.mem_map] at hrow
  obtain ⟨py, hpy, rfl⟩ := hrow
  rw [List.mem_map] at hpbrow
  obtain ⟨px, hpx, rfl⟩ := hpbrow
  unfold yStarts at hpy
  unfold xStarts at hpx
  rw [hshape] at hpy hpx
  obtain ⟨hpy0, hpy1⟩ := pyRange_mem _ _ _ hpy
  obtain ⟨hpx0, hpx1⟩ := pyRange_mem _ _ _ hpx
  have hdy : d.values.length = dy := congrArg Prod.fst hshape
  unfold patchAt
  rw [slice2_shape d.values dx py (py + psy) px (px + psxE) hrect
    hpy0 (by omega) (by omega) hpx0 (by omega) (by omega)]
  rw [Prod.mk.injEq]
  constructor <;> omega

theorem pyRange_length_nat (D P s : ℕ) (hs : 0 < s) :
    (pyRange 0 ((D : ℤ) - P) (s : ℤ)).length = if P < D then (D - P - 1) / s + 1 else 0 := by
  rw [pyRange_length]
  have hsz : (0 : ℤ) < (s : ℤ) := by exact_mod_cast hs
  by_cases h : P < D
  · rw [if_pos ⟨hsz, by omega⟩, if_pos h]
    have h1 : ((D : ℤ) - P - 1).toNat = D - P - 1 := by omega
    have h2 : (s : ℤ).toNat = s := by omega
    rw [h1, h2]
  · rw [if_neg (by omega), if_neg h]

/-! ## Claim C1 -/

/-- Claim C1 (amended).  With the EWMA setting disabled, `get_patches` walks a
sliding window that starts at `(0, 0)` and advances by `patch_size - overlap`
per axis, but its `range(0, diagram_size - patch_size, step)` bound drops
*every* window whose start is `≥ diagram_size - patch_size` — including the
full window that fits flush against the boundary.  Hence the per-axis window
count is `⌈(diagram_size - patch_size) / step⌉` (0 when `patch_size ≥
diagram_size`), every yielded patch has the full requested shape, and a
`(20, 20)` grid with `patch_size = (10, 10)`, `overlap = (0, 0)` yields
exactly `1` patch (not 4). -/
theorem C1_window_count (geom : ShapelyGeom) (st : Settings) (d : DiagramOffline)
    (psx psy ovx ovy dy dx : ℕ) (ls : List LineString)
    (hew : st.use_ewma = false)
    (hlines : d.transition_lines = some ls)
    (hshape : shape2 d.values = (dy, dx))
    (hrect : ∀ row ∈ d.values, row.length = dx)
    (hx : d.x_axes.length = dx) (hy : d.y_axes.length = dy)
    (hovx : ovx < psx) (hovy : ovy < psy) :
    ∃ l, get_patches geom st d ((psx : ℤ), (psy : ℤ)) ((ovx : ℤ), (ovy : ℤ)) (0, 0) =
        Except.ok l ∧
      l.length = (if psy < dy then (dy - psy - 1) / (psy - ovy) + 1 else 0) *
        (if psx < dx then (dx - psx - 1) / (psx - ovx) + 1 else 0) ∧
      ∀ pb ∈ l, shape2 pb.1 = (psy, psx) := by
  have he : ewma3 st = 0 := by unfold ewma3; rw [hew]; rfl
  have hsx : ((shape2 d.values).2 : ℤ) ≤ (d.x_axes.length : ℤ) := by
    rw [congrArg Prod.snd hshape, hx]
  have hsy : ((shape2 d.values).1 : ℤ) ≤ (d.y_axes.length : ℤ) := by
    rw [congrArg Prod.fst hshape, hy]
  have h := get_patches_ok geom st d psx psy ovx ovy 0 0 ls hlines
    (le_refl 0) (by positivity) (le_refl 0) (by positivity) hsx hsy
  rw [he, add_zero] at h
  refine ⟨_, h, ?_, ?_⟩
  · rw [patchGrid_length]
    unfold yStarts xStarts
    rw [congrArg Prod.fst hshape, congrArg Prod.snd hshape]
    have cy : ((psy : ℤ) - (ovy : ℤ)) = ((psy - ovy : ℕ) : ℤ) := by omega
    have cx : ((psx : ℤ) - (ovx : ℤ)) = ((psx - ovx : ℕ) : ℤ) := by omega
    rw [cy, cx, pyRange_length_nat dy psy (psy - ovy) (by omega),
      pyRange_length_nat dx psx (psx - ovx) (by omega)]
  · intro pb hpb
    have := patchGrid_mem_shape geom d ls psx psy ovx ovy 0 0 0 dy dx hshape hrect
      (by omega) (by omega) pb hpb
    simpa using this

/-- Concrete instance of C1: the `(20, 20)` grid with `(10, 10)` patches and
no overlap yields exactly one patch. -/
theorem C1_window_count_witness :
    (get_patches geomAll stOff d20 (((10 : ℕ) : ℤ), ((10 : ℕ) : ℤ))
        (((0 : ℕ) : ℤ), ((0 : ℕ) : ℤ)) (0, 0)).map List.length = Except.ok 1 := by
  obtain ⟨l, hok, hlen, hsh⟩ := C1_window_count geomAll stOff d20 10 10 0 0 20 20 []
    rfl rfl rfl
    (fun row hrow => by rw [List.eq_of_mem_replicate hrow]; rfl)
    rfl rfl (by norm_num) (by norm_num)
  rw [hok]
  show Except.ok l.length = Except.ok 1
  rw [hlen]
  norm_num

/-- The claim C1 as stated is false: the concrete `(20, 20)` instance yields
`1` patch, not `4` (the three windows touching the right/bottom boundary are
dropped by the strict `range` bound). -/
theorem C1_counterexample :
    (get_patches geomAll stOff d20 (10, 10) (0, 0) (0, 0)).map List.length =
      Except.ok 1 ∧ (1 : ℕ) ≠ 4 :=
  ⟨rfl, by norm_num⟩

/-! ## Claims C5 and C3 -/

theorem is_line_in_patch_ok (geom : ShapelyGeom) (d : DiagramOffline)
    (cx cy sx sy ox oy : ℤ) (ls : List LineString)
    (hlines : d.transition_lines = some ls)
    (h1 : 0 ≤ cx + ox) (h2 : cx + ox < d.x_axes.length)
    (h3 : 0 ≤ cy + oy) (h4 : cy + oy < d.y_axes.length)
    (h5 : 0 ≤ cx + sx - ox) (h6 : cx + sx - ox < d.x_axes.length)
    (h7 : 0 ≤ cy + sy - oy) (h8 : cy + sy - oy < d.y_axes.length) :
    is_line_in_patch geom d (cx, cy) (sx, sy) (ox, oy) =
      Except.ok (ls.any (fun line => geom.lineIntersects line.points
        (labelRect d (cx + ox) (cx + sx - ox) (cy + oy) (cy + sy - oy)))) := by
  show (do
    let start_x_v ← pyGetE d.x_axes (cx + ox)
    let start_y_v ← pyGetE d.y_axes (cy + oy)
    let end_x_v ← pyGetE d.x_axes (cx + sx - ox)
    let end_y_v ← pyGetE d.y_axes (cy + sy - oy)
    let patch_shape := [(start_x_v, start_y_v), (end_x_v, start_y_v),
                        (end_x_v, end_y_v), (start_x_v, end_y_v)]
    match d.transition_lines with
    | none => Except.error "TypeError: NoneType is not iterable"
    | some lines =>
      pure (lines.any (fun line => geom.lineIntersects line.points patch_shape))) = _
  simp only [pyGetE_pos _ _ h1 h2, pyGetE_pos _ _ h3 h4, pyGetE_pos _ _ h5 h6,
    pyGetE_pos _ _ h7 h8, ok_bind, hlines]
  rfl

/-- Claim C5 (confirmed).  With the EWMA setting disabled, the boolean label of
every window yielded by `get_patches` with `label_offset = (ox, oy)` equals
`is_line_in_patch` called with that window's top-left coordinate, the same
`patch_size` and `offsets = (ox, oy)`: both build the same volt-space
rectangle from the axis values at the offset-shrunk window bounds and run the
same any-line-intersects test. -/
theorem C5_label_eq_is_line_in_patch (geom : ShapelyGeom) (st : Settings)
    (d : DiagramOffline) (psx psy ovx ovy offx offy : ℤ) (ls : List LineString)
    (hew : st.use_ewma = false)
    (hlines : d.transition_lines = some ls)
    (hoffx0 : 0 ≤ offx) (hoffx : offx ≤ psx)
    (hoffy0 : 0 ≤ offy) (hoffy : offy ≤ psy)
    (hx : d.x_axes.length = (shape2 d.values).2)
    (hy : d.y_axes.length = (shape2 d.values).1) :
    get_patches geom st d (psx, psy) (ovx, ovy) (offx, offy) =
      Except.ok (patchGrid geom d ls psx psy ovx ovy offx offy 0) ∧
    ∀ py ∈ yStarts d psy ovy, ∀ px ∈ xStarts d psx ovx,
      is_line_in_patch geom d (px, py) (psx, psy) (offx, offy) =
        Except.ok ((patchAt geom d ls psx psy offx offy 0 py px).2) := by
  have he : ewma3 st = 0 := by unfold ewma3; rw [hew]; rfl
  constructor
  · have h := get_patches_ok geom st d psx psy ovx ovy offx offy ls hlines
      hoffx0 hoffx hoffy0 hoffy (by omega) (by omega)
    rw [he, add_zero] at h
    exact h
  · intro py hpy px hpx
    unfold yStarts at hpy
    unfold xStarts at hpx
    obtain ⟨hpy0, hpy1⟩ := pyRange_mem _ _ _ hpy
    obtain ⟨hpx0, hpx1⟩ := pyRange_mem _ _ _ hpx
    rw [is_line_in_patch_ok geom d px py psx psy offx offy ls hlines
      (by omega) (by omega) (by omega) (by omega) (by omega) (by omega)
      (by omega) (by omega)]
    simp only [patchAt, add_zero]

/-- Concrete instance of C5 on the `(20, 20)` diagram with offsets `(1, 1)`:
the single window is at `(0, 0)` and its label agrees with
`is_line_in_patch`. -/
theorem C5_label_eq_is_line_in_patch_witness :
    get_patches geomAll stOff d20 (10, 10) (0, 0) (1, 1) =
      Except.ok (patchGrid geomAll d20 [] 10 10 0 0 1 1 0) ∧
    is_line_in_patch geomAll d20 (0, 0) (10, 10) (1, 1) =
      Except.ok ((patchAt geomAll d20 [] 10 10 1 1 0 0 0).2) := by
  have h := C5_label_eq_is_line_in_patch geomAll stOff d20 10 10 0 0 1 1 []
    rfl rfl (by norm_num) (by norm_num) (by norm_num) (by norm_num) rfl rfl
  exact ⟨h.1, h.2 0 (by decide) 0 (by decide)⟩

/-- Claim C3 (confirmed).  With the EWMA setting enabled, every yielded patch's
raw-value extraction is widened by exactly 3 pixels on the low-X side — its
shape is `(psy, psx + 3)` and its value slice starts at the window start
`px`, 3 pixels before the unextended window at `px + 3` — while the label
rectangle still spans the unextended inner bounds: the label equals
`is_line_in_patch` queried on the unextended window `(px + 3, py)` of size
`(psx, psy)` with the same offsets. -/
theorem C3_ewma_widens_extraction_only (geom : ShapelyGeom) (st : Settings)
    (d : DiagramOffline) (psx psy ovx ovy offx offy : ℤ) (ls : List LineString)
    (dy dx : ℕ)
    (hew : st.use_ewma = true)
    (hlines : d.transition_lines = some ls)
    (hshape : shape2 d.values = (dy, dx))
    (hrect : ∀ row ∈ d.values, row.length = dx)
    (hx : d.x_axes.length = dx) (hy : d.y_axes.length = dy)
    (hoffx0 : 0 ≤ offx) (hoffx : offx ≤ psx)
    (hoffy0 : 0 ≤ offy) (hoffy : offy ≤ psy)
    (hpsy : 0 < psy) :
    get_patches geom st d (psx, psy) (ovx, ovy) (offx, offy) =
      Except.ok (patchGrid geom d ls (psx + 3) psy ovx ovy offx offy 3) ∧
    (∀ pb ∈ patchGrid geom d ls (psx + 3) psy ovx ovy offx offy 3,
      shape2 pb.1 = (psy.toNat, (psx + 3).toNat)) ∧
    ∀ py ∈ yStarts d psy ovy, ∀ px ∈ xStarts d (psx + 3) ovx,
      is_line_in_patch geom d (px + 3, py) (psx, psy) (offx, offy) =
        Except.ok ((patchAt geom d ls (psx + 3) psy offx offy 3 py px).2) := by
  have he : ewma3 st = 3 := by unfold ewma3; rw [hew]; rfl
  have hsx : ((shape2 d.values).2 : ℤ) ≤ (d.x_axes.length : ℤ) := by
    rw [congrArg Prod.snd hshape, hx]
  have hsy : ((shape2 d.values).1 : ℤ) ≤ (d.y_axes.length : ℤ) := by
    rw [congrArg Prod.fst hshape, hy]
  refine ⟨?_, ?_, ?_⟩
  · have h := get_patches_ok geom st d psx psy ovx ovy offx offy ls hlines
      hoffx0 hoffx hoffy0 hoffy hsx hsy
    rw [he] at h
    exact h
  · exact patchGrid_mem_shape geom d ls (psx + 3) psy ovx ovy offx offy 3 dy dx
      hshape hrect hpsy (by omega)
  · intro py hpy px hpx
    unfold yStarts at hpy
    unfold xStarts at hpx
    rw [congrArg Prod.fst hshape] at hpy
    rw [congrArg Prod.snd hshape] at hpx
    obtain ⟨hpy0, hpy1⟩ := pyRange_mem _ _ _ hpy
    obtain ⟨hpx0, hpx1⟩ := pyRange_mem _ _ _ hpx
    rw [is_line_in_patch_ok geom d (px + 3) py psx psy offx offy ls hlines
      (by omega) (by omega) (by omega) (by omega) (by omega) (by omega)
      (by omega) (by omega)]
    have e1 : px + 3 + offx = px + offx + 3 := by ring
    have e2 : px + 3 + psx - offx = px + (psx + 3) - offx := by ring
    rw [e1, e2]
    simp only [patchAt]

/-- Concrete instance of C3: with EWMA on, a requested `(7, 10)` patch on the
`(20, 20)` diagram comes out as the single window at `(0, 0)` of shape
`(10, 10)` (7 + 3 wide), and its label is the `is_line_in_patch` answer on
the unextended window at `(3, 0)`. -/
theorem C3_ewma_widens_extraction_only_witness :
    get_patches geomAll stOn d20 (7, 10) (0, 0) (0, 0) =
      Except.ok (patchGrid geomAll d20 [] (7 + 3) 10 0 0 0 0 3) ∧
    is_line_in_patch geomAll d20 (0 + 3, 0) (7, 10) (0, 0) =
      Except.ok ((patchAt geomAll d20 [] (7 + 3) 10 0 0 3 0 0).2) := by
  have h := C3_ewma_widens_extraction_only geomAll stOn d20 7 10 0 0 0 0 [] 20 20
    rfl rfl rfl
    (fun row hrow => by rw [List.eq_of_mem_replicate hrow]; rfl)
    rfl rfl (by norm_num) (by norm_num) (by norm_num) (by norm_num) (by norm_num)
  exact ⟨h.1, h.2.2 0 (by decide) 0 (by decide)⟩

/-! ## Claims C2 and C10 -/

/-- Claim C2 (amended).  With a non-absent charge-region list, `get_charge`
never raises, and it returns `UNKNOWN` for every coordinate pair that is out
of range *in the Python-indexing sense*: some index below `-len` or at/above
`len`.  Negative coordinates in `[-len, -1]`, however, wrap Python-style to
the far end of the axis and are looked up normally (they need not give
`UNKNOWN`; see the counterexample). -/
theorem C2_get_charge_out_of_range (geom : ShapelyGeom) (d : DiagramOffline)
    (coord_x coord_y : ℤ) (areas : List (ChargeRegime × Polygon))
    (hareas : d.charge_areas = some areas) :
    (∃ r, get_charge geom d coord_x coord_y = Except.ok r) ∧
    ((coord_x < -(d.x_axes.length : ℤ) ∨ (d.x_axes.length : ℤ) ≤ coord_x ∨
      coord_y < -(d.y_axes.length : ℤ) ∨ (d.y_axes.length : ℤ) ≤ coord_y) →
      get_charge geom d coord_x coord_y = Except.ok ChargeRegime.UNKNOWN) := by
  cases hgx : pyGet d.x_axes coord_x with
  | none =>
    refine ⟨⟨ChargeRegime.UNKNOWN, ?_⟩, fun _ => ?_⟩ <;> (unfold get_charge; rw [hgx])
  | some vx =>
    cases hgy : pyGet d.y_axes coord_y with
    | none =>
      refine ⟨⟨ChargeRegime.UNKNOWN, ?_⟩, fun _ => ?_⟩ <;>
        (unfold get_charge; rw [hgx, hgy])
    | some vy =>
      refine ⟨⟨firstRegime geom areas (vx, vy), ?_⟩, ?_⟩
      · unfold get_charge
        rw [hgx, hgy, hareas]
      · intro hout
        exfalso
        rcases hout with h | h | h | h
        · rw [pyGet_none _ _ (Or.inl h)] at hgx; cases hgx
        · rw [pyGet_none _ _ (Or.inr h)] at hgx; cases hgx
        · rw [pyGet_none _ _ (Or.inl h)] at hgy; cases hgy
        · rw [pyGet_none _ _ (Or.inr h)] at hgy; cases hgy

/-- Concrete instance of C2 (amended): both Python-out-of-range directions
(index 5 and index -3 on a length-2 axis) give `UNKNOWN` without raising. -/
theorem C2_get_charge_out_of_range_witness :
    get_charge geomPt dNeg 5 0 = Except.ok ChargeRegime.UNKNOWN ∧
    get_charge geomPt dNeg (-3) 0 = Except.ok ChargeRegime.UNKNOWN := by
  constructor
  · exact (C2_get_charge_out_of_range geomPt dNeg 5 0 _ rfl).2
      (Or.inr (Or.inl (by norm_num [dNeg])))
  · exact (C2_get_charge_out_of_range geomPt dNeg (-3) 0 _ rfl).2
      (Or.inl (by norm_num [dNeg]))

/-- The claim C2 as stated is false: on `dNeg` the out-of-range negative
coordinates `(-1, -1)` wrap Python-style to the last axis entries, land in
the charge region, and `get_charge` answers that region's regime, not
`UNKNOWN`. -/
theorem C2_counterexample :
    get_charge geomPt dNeg (-1) (-1) = Except.ok ChargeRegime.ELECTRON_1 ∧
      ChargeRegime.ELECTRON_1 ≠ ChargeRegime.UNKNOWN :=
  ⟨rfl, by decide⟩

/-- Claim C10 (confirmed).  When the diagram was constructed with
`charge_areas = None`, `get_charge` at any in-range coordinate raises
(`TypeError`, from iterating `None`) instead of returning `UNKNOWN`: a
non-absent region list is an unstated precondition. -/
theorem C10_get_charge_none_areas_raises (geom : ShapelyGeom) (d : DiagramOffline)
    (coord_x coord_y : ℤ)
    (hareas : d.charge_areas = none)
    (hx0 : 0 ≤ coord_x) (hx1 : coord_x < d.x_axes.length)
    (hy0 : 0 ≤ coord_y) (hy1 : coord_y < d.y_axes.length) :
    get_charge geom d coord_x coord_y =
      Except.error "TypeError: NoneType is not iterable" := by
  unfold get_charge
  rw [pyGet_pos_some _ _ hx0 hx1, pyGet_pos_some _ _ hy0 hy1, hareas]

/-- Concrete instance of C10: in-range lookup on a diagram with absent
charge areas raises. -/
theorem C10_get_charge_none_areas_raises_witness :
    get_charge geomPt dNone 0 0 =
      Except.error "TypeError: NoneType is not iterable" :=
  C10_get_charge_none_areas_raises geomPt dNone 0 0 rfl (by norm_num)
    (by norm_num [dNone]) (by norm_num) (by norm_num [dNone])

/-! ## Claim C6 -/

theorem err_bind {α β : Type} (e : String) (k : α → Except String β) :
    (Except.error e >>= k) = Except.error e := rfl

theorem pyGetE_cons_zero {α : Type} (a : α) (l : List α) :
    pyGetE (a :: l) 0 = Except.ok a := by
  unfold pyGetE pyGet
  rw [if_pos ⟨le_refl 0, by simp only [List.length_cons]; omega⟩]
  rfl

theorem pyGetE_cons_one {α : Type} (a b : α) (l : List α) :
    pyGetE (a :: b :: l) 1 = Except.ok b := by
  unfold pyGetE pyGet
  rw [if_pos ⟨by norm_num, by simp only [List.length_cons]; omega⟩]
  rfl

theorem pyGetE_cons_two {α : Type} (a b c : α) (l : List α) :
    pyGetE (a :: b :: c :: l) 2 = Except.ok c := by
  unfold pyGetE pyGet
  rw [if_pos ⟨by norm_num, by simp only [List.length_cons]; omega⟩]
  rfl

theorem headD_length_of_rect (matrix : List (List ℚ)) (w : ℕ)
    (hne : matrix ≠ []) (hrect : ∀ row ∈ matrix, row.length = w) :
    (matrix.headD []).length = w := by
  cases matrix with
  | nil => exact absurd rfl hne
  | cons r rs => exact hrect r (by simp)

theorem load_interpolated_csv_eq_false (x_start y_start step : ℚ) (hr : List ℚ)
    (matrix : List (List ℚ)) :
    load_interpolated_csv ((x_start :: y_start :: step :: hr) :: matrix) false =
      Except.ok
        ((List.range (shape2 matrix).2).map (fun (i : ℕ) => (i : ℚ) * step + x_start),
        (List.range matrix.length).map (fun (j : ℕ) => (j : ℚ) * step + y_start),
        matrix) := by
  unfold load_interpolated_csv
  simp only [List.headD_cons, pyGetE_cons_zero, pyGetE_cons_one, pyGetE_cons_two,
    ok_bind, List.drop_succ_cons, List.drop_zero]
  rfl

theorem load_interpolated_csv_eq_true (x_start y_start step : ℚ) (hr : List ℚ)
    (matrix : List (List ℚ)) :
    load_interpolated_csv ((x_start :: y_start :: step :: hr) :: matrix) true =
      Except.ok
        ((List.range (shape2 matrix.reverse).2).map
          (fun (i : ℕ) => (i : ℚ) * step + x_start),
        (List.range matrix.reverse.length).map
          (fun (j : ℕ) => (j : ℚ) * step + y_start),
        matrix.reverse) := by
  unfold load_interpolated_csv
  simp only [List.headD_cons, pyGetE_cons_zero, pyGetE_cons_one, pyGetE_cons_two,
    ok_bind, List.drop_succ_cons, List.drop_zero]
  rfl

/-- Claim C6 (confirmed).  Loading an encoded grid whose row 0 starts with
`(x_start, y_start, step)` and whose remaining rows form a `w`-wide value
matrix reconstructs `x_axis[i] = i * step + x_start` for `i < w` and
`y_axis[j] = j * step + y_start` for `j < height`, and returns the matrix
unchanged for `invert_y = false` and with row order exactly reversed for
`invert_y = true`: encoding then loading round-trips matrix and axes
exactly. -/
theorem C6_load_interpolated_csv_roundtrip (x_start y_start step : ℚ)
    (header_rest : List ℚ) (matrix : List (List ℚ)) (w : ℕ)
    (hne : matrix ≠ [])
    (hrect : ∀ row ∈ matrix, row.length = w) :
    load_interpolated_csv ((x_start :: y_start :: step :: header_rest) :: matrix) false =
      Except.ok ((List.range w).map (fun (i : ℕ) => (i : ℚ) * step + x_start),
        (List.range matrix.length).map (fun (j : ℕ) => (j : ℚ) * step + y_start),
        matrix) ∧
    load_interpolated_csv ((x_start :: y_start :: step :: header_rest) :: matrix) true =
      Except.ok ((List.range w).map (fun (i : ℕ) => (i : ℚ) * step + x_start),
        (List.range matrix.length).map (fun (j : ℕ) => (j : ℚ) * step + y_start),
        matrix.reverse) := by
  constructor
  · rw [load_interpolated_csv_eq_false]
    have hw : (shape2 matrix).2 = w := headD_length_of_rect matrix w hne hrect
    rw [hw]
  · rw [load_interpolated_csv_eq_true]
    have hw : (shape2 matrix.reverse).2 = w :=
      headD_length_of_rect matrix.reverse w (by simpa using hne)
        (fun row hrow => hrect row (List.mem_reverse.mp hrow))
    rw [hw, List.length_reverse]

/-- Concrete instance of C6: a 2 × 3 grid with header `(5, 7, 2)`
round-trips, with reversed rows under `invert_y`. -/
theorem C6_load_interpolated_csv_roundtrip_witness :
    load_interpolated_csv [[5, 7, 2], [1, 2, 3], [4, 5, 6]] false =
      Except.ok ([5, 7, 9], [7, 9], [[1, 2, 3], [4, 5, 6]]) ∧
    load_interpolated_csv [[5, 7, 2], [1, 2, 3], [4, 5, 6]] true =
      Except.ok ([5, 7, 9], [7, 9], [[4, 5, 6], [1, 2, 3]]) := by
  have h := C6_load_interpolated_csv_roundtrip 5 7 2 [] [[1, 2, 3], [4, 5, 6]] 3
    (by simp) (by intro row hrow; fin_cases hrow <;> rfl)
  exact ⟨h.1.trans (by norm_num [List.range_succ]), h.2.trans (by norm_num [List.range_succ])⟩

/-! ## Claim C7 -/

theorem pyGetE_ok_inv {α : Type} (l : List α) (i : ℤ) (v : α)
    (h : pyGetE l i = Except.ok v) : pyGet l i = some v := by
  unfold pyGetE at h
  cases hg : pyGet l i with
  | none => rw [hg] at h; cases h
  | some w => rw [hg] at h; cases h; rfl

theorem firstRegime_append (geom : ShapelyGeom) (l1 l2 : List (ChargeRegime × Polygon))
    (r : ChargeRegime) (a : Polygon) (pt : ℚ × ℚ)
    (hhit : geom.polyContains a.points pt = true)
    (hmiss : ∀ ra ∈ l1, geom.polyContains ra.2.points pt = false) :
    firstRegime geom (l1 ++ (r, a) :: l2) pt = r := by
  induction l1 with
  | nil =>
    rw [List.nil_append]
    show (if geom.polyContains a.points pt = true then r else firstRegime geom l2 pt) = r
    rw [hhit]
    simp
  | cons ra rest ih =>
    obtain ⟨reg, poly⟩ := ra
    have hm := hmiss (reg, poly) (by simp)
    rw [List.cons_append]
    show (if geom.polyContains poly.points pt = true then reg
      else firstRegime geom (rest ++ (r, a) :: l2) pt) = r
    rw [hm]
    simp only [Bool.false_eq_true, if_false]
    exact ih (fun z hz => hmiss z (by simp [hz]))

/-- Claim C7 (confirmed).  When a volt point lies inside two or more charge
regions, `get_charge` returns the regime of the first containing region in
list order; and `_load_charge_annotations` preserves the order of its raw
input records: output `i` is built from input `i` (regime parsed from its
name, polygon from its volt-mapped points). -/
theorem C7_first_match_in_order (geom : ShapelyGeom) (d : DiagramOffline)
    (coord_x coord_y : ℤ) (l1 l2 : List (ChargeRegime × Polygon))
    (r : ChargeRegime) (a : Polygon)
    (hareas : d.charge_areas = some (l1 ++ (r, a) :: l2))
    (hx0 : 0 ≤ coord_x) (hx1 : coord_x < d.x_axes.length)
    (hy0 : 0 ≤ coord_y) (hy1 : coord_y < d.y_axes.length)
    (hhit : geom.polyContains a.points (axv d.x_axes coord_x, axv d.y_axes coord_y) = true)
    (hmiss : ∀ ra ∈ l1, geom.polyContains ra.2.points
      (axv d.x_axes coord_x, axv d.y_axes coord_y) = false)
    (recs : List ObjRecord) (x y : List ℚ) (pixel_size snap : ℚ)
    (outs : List (ChargeRegime × Polygon))
    (hload : load_charge_annotations recs x y pixel_size snap = Except.ok outs) :
    get_charge geom d coord_x coord_y = Except.ok r ∧
    recs.length = outs.length ∧
    ∀ i rec, recs.get? i = some rec → ∃ reg,
      ChargeRegime.ofString rec.name = some reg ∧
      outs.get? i = some (reg, Polygon.mk (List.zip
        (coord_to_volt (rec.polygon.map Prod.fst) (axv x 0) (axv x (-1))
          pixel_size snap false)
        (coord_to_volt (rec.polygon.map Prod.snd) (axv y 0) (axv y (-1))
          pixel_size snap true))) := by
  refine ⟨?_, ?_⟩
  · unfold get_charge
    rw [pyGet_pos_some _ _ hx0 hx1, pyGet_pos_some _ _ hy0 hy1, hareas]
    show Except.ok (firstRegime geom (l1 ++ (r, a) :: l2)
      (axv d.x_axes coord_x, axv d.y_axes coord_y)) = Except.ok r
    rw [firstRegime_append geom l1 l2 r a _ hhit hmiss]
  · obtain ⟨hlen, hget⟩ := exceptMapM_ok_spec _ recs outs hload
    refine ⟨hlen, ?_⟩
    intro i rec hrec
    obtain ⟨b, hfb, houts⟩ := hget i rec hrec
    cases hx0g : pyGetE x 0 with
    | error e => rw [hx0g, err_bind] at hfb; cases hfb
    | ok x0 =>
      rw [hx0g, ok_bind] at hfb
      cases hx1g : pyGetE x (-1) with
      | error e => rw [hx1g, err_bind] at hfb; cases hfb
      | ok xL =>
        rw [hx1g, ok_bind] at hfb
        cases hy0g : pyGetE y 0 with
        | error e => rw [hy0g, err_bind] at hfb; cases hfb
        | ok y0 =>
          rw [hy0g, ok_bind] at hfb
          cases hy1g : pyGetE y (-1) with
          | error e => rw [hy1g, err_bind] at hfb; cases hfb
          | ok yL =>
            rw [hy1g, ok_bind] at hfb
            cases hofs : ChargeRegime.ofString rec.name with
            | none => rw [hofs] at hfb; cases hfb
            | some reg =>
              rw [hofs] at hfb
              cases hfb
              have ex0 : axv x 0 = x0 := by
                unfold axv
                rw [pyGetE_ok_inv _ _ _ hx0g]
                rfl
              have exL : axv x (-1) = xL := by
                unfold axv
                rw [pyGetE_ok_inv _ _ _ hx1g]
                rfl
              have ey0 : axv y 0 = y0 := by
                unfold axv
                rw [pyGetE_ok_inv _ _ _ hy0g]
                rfl
              have eyL : axv y (-1) = yL := by
                unfold axv
                rw [pyGetE_ok_inv _ _ _ hy1g]
                rfl
              rw [ex0, exL, ey0, eyL]
              exact ⟨reg, rfl, houts⟩

/-- Concrete instance of C7: on `dOrder` the point `(1, 1)` lies in the
second and third regions; `get_charge` answers the second (first containing
in order), and loading one annotation record produces the matching
one-output list. -/
theorem C7_first_match_in_order_witness :
    get_charge geomSel dOrder 1 1 = Except.ok ChargeRegime.ELECTRON_1 ∧
    [(ChargeRegime.ELECTRON_1, Polygon.mk [((0 : ℚ), (1 : ℚ))])].get? 0 =
      some (ChargeRegime.ELECTRON_1, Polygon.mk (List.zip
        (coord_to_volt ([((0 : ℚ), (0 : ℚ))].map Prod.fst)
          (axv [0, 1] 0) (axv [0, 1] (-1)) 1 0 false)
        (coord_to_volt ([((0 : ℚ), (0 : ℚ))].map Prod.snd)
          (axv [0, 1] 0) (axv [0, 1] (-1)) 1 0 true))) := by
  have hld : load_charge_annotations
      [ObjRecord.mk "1_electron" [] [((0 : ℚ), (0 : ℚ))]] [0, 1] [0, 1] 1 0 =
      Except.ok [(ChargeRegime.ELECTRON_1, Polygon.mk [((0 : ℚ), (1 : ℚ))])] := by
    norm_num [load_charge_annotations, exceptMapM, pyGetE, pyGet, coord_to_volt,
      ChargeRegime.ofString, ok_bind]
    rfl
  have h := C7_first_match_in_order geomSel dOrder 1 1
    [(ChargeRegime.ELECTRON_0, Polygon.mk [(5, 5)])]
    [(ChargeRegime.ELECTRON_2, Polygon.mk [(7, 7)])]
    ChargeRegime.ELECTRON_1 (Polygon.mk [(7, 7)])
    rfl (by norm_num) (by norm_num [dOrder]) (by norm_num) (by norm_num [dOrder])
    (by decide) (by decide)
    [ObjRecord.mk "1_electron" [] [((0 : ℚ), (0 : ℚ))]] [0, 1] [0, 1] 1 0
    [(ChargeRegime.ELECTRON_1, Polygon.mk [((0 : ℚ), (1 : ℚ))])] hld
  obtain ⟨reg, hofs, houts⟩ :=
    h.2.2 0 (ObjRecord.mk "1_electron" [] [((0 : ℚ), (0 : ℚ))]) rfl
  have hre : reg = ChargeRegime.ELECTRON_1 := by
    have hval : ChargeRegime.ofString "1_electron" = some ChargeRegime.ELECTRON_1 := rfl
    rw [hval] at hofs
    exact (Option.some.inj hofs).symm
  exact ⟨h.1, hre ▸ houts⟩

/-! ## Claim C4 -/

/-- Claim C4 (confirmed).  In the loader's per-file cascade, a grid file whose
matched label record has a project sub-record but whose classifications lack
the `pixel_size_volt` field is skipped with the *unlabeled* counter
(`nb_no_label`) incremented — not the filtered or excluded counter, and
regardless of the `nb_dot` classification, showing classification extraction
precedes dot-count filtering; and whitelist exclusion fires before any
label-record lookup (second conjunct: an excluded name is counted excluded no
matter what the label index holds). -/
theorem C4_missing_pixel_size_counts_no_label (st : Settings)
    (labels : List (String × LabelRecord)) (single_dot load_lines load_areas : Bool)
    (white_list : Option (List String)) (acc : LoadAcc) (gf : GridFile)
    (record : LabelRecord) (project : Project)
    (hwl : whiteListExcludes white_list gf.basename = false)
    (hrec : dictLookup labels (gf.basename ++ ".png") = some record)
    (hproj : record.projects.find? (fun p => pyUpper p.name = "QDSD") = some project)
    (hpix : project.annotations.classifications.find?
      (fun c => c.name = "pixel_size_volt") = none) :
    processOne st labels single_dot load_lines load_areas white_list acc gf =
      Except.ok { acc with nb_no_label := acc.nb_no_label + 1 } ∧
    ∀ wl2, whiteListExcludes wl2 gf.basename = true →
      processOne st labels single_dot load_lines load_areas wl2 acc gf =
        Except.ok { acc with nb_excluded := acc.nb_excluded + 1 } := by
  constructor
  · unfold processOne
    simp only [hwl, Bool.false_eq_true, if_false, hrec, hproj, hpix]
  · intro wl2 hw
    unfold processOne
    simp only [hw, if_true]

/-- Concrete instance of C4: `recNoPix` has a QDSD project and an `nb_dot`
classification but no `pixel_size_volt`; the diagram is counted unlabeled,
and under a whitelist not containing it, excluded. -/
theorem C4_missing_pixel_size_counts_no_label_witness :
    processOne stOff [("a.png", recNoPix)] true true true none
      (LoadAcc.mk [] 0 0 0) gfA = Except.ok (LoadAcc.mk [] 1 0 0) ∧
    processOne stOff [("a.png", recNoPix)] true true true (some ["b"])
      (LoadAcc.mk [] 0 0 0) gfA = Except.ok (LoadAcc.mk [] 0 1 0) := by
  have h := C4_missing_pixel_size_counts_no_label stOff [("a.png", recNoPix)]
    true true true none (LoadAcc.mk [] 0 0 0) gfA recNoPix
    (Project.mk "qdsd" (Annotations.mk [Classification.mk "nb_dot" 0 "single"] []))
    rfl (by decide) (by decide) (by decide)
  exact ⟨h.1, h.2 (some ["b"]) (by decide)⟩

/-! ## Claim C9 -/

theorem exceptFoldl_congr {α β : Type} (f g : β → α → Except String β)
    (h : ∀ b a, f b a = g b a) : ∀ (b : β) (l : List α),
    exceptFoldl f b l = exceptFoldl g b l := by
  intro b l
  induction l generalizing b with
  | nil => rfl
  | cons a rest ih =>
    unfold exceptFoldl
    rw [h b a]
    cases g b a with
    | error e => rfl
    | ok b2 => exact ih b2

theorem processOne_empty_whitelist (st : Settings) (labels : List (String × LabelRecord))
    (single_dot load_lines load_areas : Bool) (acc : LoadAcc) (gf : GridFile) :
    processOne st labels single_dot load_lines load_areas (some []) acc gf =
      processOne st labels single_dot load_lines load_areas none acc gf := rfl

theorem processAreas_excluded (acc : LoadAcc) (la : Bool) (objects : List ObjRecord)
    (x y : List ℚ) (ps : ℚ) (base : String) (values : List (List ℚ))
    (tl : Option (List LineString)) (acc2 : LoadAcc)
    (h : processAreas acc la objects x y ps base values tl = Except.ok acc2) :
    acc2.nb_excluded = acc.nb_excluded := by
  unfold processAreas at h
  split at h
  · split at h
    · cases h
    · split at h
      · cases h; rfl
      · cases h; rfl
  · cases h; rfl

theorem processOne_excluded_of_pass (st : Settings) (labels : List (String × LabelRecord))
    (single_dot load_lines load_areas : Bool) (wl : Option (List String))
    (acc : LoadAcc) (gf : GridFile) (acc2 : LoadAcc)
    (hwl : whiteListExcludes wl gf.basename = false)
    (h : processOne st labels single_dot load_lines load_areas wl acc gf = Except.ok acc2) :
    acc2.nb_excluded = acc.nb_excluded := by
  unfold processOne at h
  simp only [hwl, Bool.false_eq_true, if_false] at h
  split at h
  · cases h; rfl
  · split at h
    · cases h; rfl
    · split at h
      · split at h
        · cases h; rfl
        · split at h
          · cases h
          · split at h
            · split at h
              · cases h
              · split at h
                · cases h; rfl
                · exact processAreas_excluded _ _ _ _ _ _ _ _ _ _ h
            · exact processAreas_excluded _ _ _ _ _ _ _ _ _ _ h
      · cases h; rfl

theorem exceptFoldl_excluded (st : Settings) (labels : List (String × LabelRecord))
    (single_dot load_lines load_areas : Bool) (wl : Option (List String))
    (hwl : ∀ base, whiteListExcludes wl base = false) :
    ∀ (files : List GridFile) (acc acc2 : LoadAcc),
    exceptFoldl (processOne st labels single_dot load_lines load_areas wl) acc files =
      Except.ok acc2 → acc2.nb_excluded = acc.nb_excluded := by
  intro files
  induction files with
  | nil =>
    intro acc acc2 h
    unfold exceptFoldl at h
    cases h
    rfl
  | cons gf rest ih =>
    intro acc acc2 h
    unfold exceptFoldl at h
    cases hp : processOne st labels single_dot load_lines load_areas wl acc gf with
    | error e => rw [hp] at h; cases h
    | ok mid =>
      rw [hp] at h
      have h1 := processOne_excluded_of_pass st labels single_dot load_lines load_areas
        wl acc gf mid (hwl gf.basename) hp
      have h2 := ih mid acc2 h
      omega

/-- Claim C9 (confirmed).  Passing an *empty* whitelist to `load_diagrams` is
the same as passing no whitelist at all — Python's truthiness test
`if white_list and ...` is false for the empty list — so every diagram
passes the whitelist check and none is counted as excluded. -/
theorem C9_empty_whitelist_disables_filtering (st : Settings) (pixel_size : ℚ)
    (research_group : String) (diagrams_zip : List ((ℚ × String) × List GridFile))
    (labels_file : List LabelRecord) (single_dot load_lines load_areas : Bool) :
    load_diagrams st pixel_size research_group diagrams_zip labels_file
        single_dot load_lines load_areas (some []) =
      load_diagrams st pixel_size research_group diagrams_zip labels_file
        single_dot load_lines load_areas none ∧
    ∀ res, load_diagrams st pixel_size research_group diagrams_zip labels_file
        single_dot load_lines load_areas (some []) = Except.ok res →
      res.nb_excluded = 0 := by
  constructor
  · unfold load_diagrams
    cases hz : zipLookup diagrams_zip (pixel_size * 1000, research_group) with
    | none => rfl
    | some files =>
      exact exceptFoldl_congr _ _
        (fun b a => processOne_empty_whitelist st _ single_dot load_lines load_areas b a)
        _ files
  · intro res hres
    unfold load_diagrams at hres
    cases hz : zipLookup diagrams_zip (pixel_size * 1000, research_group) with
    | none => rw [hz] at hres; cases hres
    | some files =>
      rw [hz] at hres
      exact exceptFoldl_excluded st _ single_dot load_lines load_areas (some [])
        (fun base => rfl) files (LoadAcc.mk [] 0 0 0) res hres

/-- Concrete instance of C9: one archive directory with one grid file; the
empty whitelist behaves as no whitelist, and the loaded result has zero
exclusions. -/
theorem C9_empty_whitelist_disables_filtering_witness :
    load_diagrams stOff 1 "g" [((1000, "g"), [gfA])] [recNoPix]
        true true true (some []) =
      load_diagrams stOff 1 "g" [((1000, "g"), [gfA])] [recNoPix]
        true true true none ∧
    (LoadAcc.mk [] 1 0 0).nb_excluded = 0 := by
  have h := C9_empty_whitelist_disables_filtering stOff 1 "g"
    [((1000, "g"), [gfA])] [recNoPix] true true true
  have hz : zipLookup [((1000, "g"), [gfA])] ((1 : ℚ) * 1000, "g") = some [gfA] := by
    norm_num [zipLookup]
  have hp : processOne stOff [(recNoPix.external_id, recNoPix)] true true true (some [])
      (LoadAcc.mk [] 0 0 0) gfA = Except.ok (LoadAcc.mk [] 1 0 0) := by decide
  have hres : load_diagrams stOff 1 "g" [((1000, "g"), [gfA])] [recNoPix]
      true true true (some []) = Except.ok (LoadAcc.mk [] 1 0 0) := by
    unfold load_diagrams
    rw [hz]
    unfold exceptFoldl
    simp only [List.map_cons, List.map_nil]
    rw [hp]
    rfl
  exact ⟨h.1, h.2 (LoadAcc.mk [] 1 0 0) hres⟩

/-! ## Claim C8 -/

theorem exceptMapM_ok_of_forall {α β : Type} (f : α → Except String β) :
    ∀ l : List α, (∀ a ∈ l, ∃ b, f a = Except.ok b) →
    ∃ bs, exceptMapM f l = Except.ok bs := by
  intro l
  induction l with
  | nil => exact fun _ => ⟨[], rfl⟩
  | cons a rest ih =>
    intro h
    obtain ⟨b, hb⟩ := h a (by simp)
    obtain ⟨bs, hbs⟩ := ih (fun z hz => h z (by simp [hz]))
    refine ⟨b :: bs, ?_⟩
    unfold exceptMapM
    rw [hb, hbs]

theorem exceptFoldl_ok_of_forall {α β : Type} (f : β → α → Except String β) :
    ∀ l : List α, (∀ b, ∀ a ∈ l, ∃ b2, f b a = Except.ok b2) →
    ∀ b, ∃ bout, exceptFoldl f b l = Except.ok bout := by
  intro l
  induction l with
  | nil => exact fun _ b => ⟨b, rfl⟩
  | cons a rest ih =>
    intro h b
    obtain ⟨b2, hb2⟩ := h b a (by simp)
    obtain ⟨bout, hbout⟩ := ih (fun bb z hz => h bb z (by simp [hz])) b2
    refine ⟨bout, ?_⟩
    unfold exceptFoldl
    rw [hb2]
    exact hbout

theorem dictLookup_mem (labels_file : List LabelRecord) (k : String) (v : LabelRecord)
    (h : dictLookup (labels_file.map (fun r => (r.external_id, r))) k = some v) :
    v ∈ labels_file := by
  unfold dictLookup at h
  cases hf : (labels_file.map (fun r => (r.external_id, r))).reverse.find?
      (fun p => p.1 = k) with
  | none => rw [hf] at h; cases h
  | some p =>
    rw [hf] at h
    injection h with h2
    have hmem := List.mem_of_find?_eq_some hf
    rw [List.mem_reverse, List.mem_map] at hmem
    obtain ⟨r, hr, hpr⟩ := hmem
    rw [← h2, ← hpr]
    exact hr

theorem zipLookup_mem (dirs : List ((ℚ × String) × List GridFile)) (key : ℚ × String)
    (files : List GridFile) (h : zipLookup dirs key = some files) :
    ∃ p, p ∈ dirs ∧ p.2 = files := by
  unfold zipLookup at h
  cases hf : dirs.find? (fun p => p.1 = key) with
  | none => rw [hf] at h; cases h
  | some p =>
    rw [hf] at h
    injection h with h2
    exact ⟨p, List.mem_of_find?_eq_some hf, h2⟩

theorem load_interpolated_csv_ok (content : List (List ℚ)) (w : ℕ)
    (hlen : 2 ≤ content.length) (hw : 3 ≤ w)
    (hrect : ∀ row ∈ content, row.length = w) :
    ∃ x y values, load_interpolated_csv content true = Except.ok (x, y, values) ∧
      x ≠ [] ∧ y ≠ [] := by
  cases content with
  | nil => simp at hlen
  | cons hdr rest =>
    have hhdr : hdr.length = w := hrect hdr (by simp)
    have hne : rest ≠ [] := by
      intro hcon
      rw [hcon] at hlen
      simp at hlen
    cases hdr with
    | nil => simp at hhdr; omega
    | cons a t1 =>
      cases t1 with
      | nil => simp at hhdr; omega
      | cons b t2 =>
        cases t2 with
        | nil => simp at hhdr; omega
        | cons c t3 =>
          refine ⟨_, _, _, load_interpolated_csv_eq_true a b c t3 rest, ?_, ?_⟩
          · have hrev : (shape2 rest.reverse).2 = w :=
              headD_length_of_rect rest.reverse w (by simpa using hne)
                (fun row hrow => hrect row (by simp [List.mem_reverse.mp hrow]))
            rw [hrev]
            simp only [ne_eq, List.map_eq_nil_iff, List.range_eq_nil]
            omega
          · simp only [ne_eq, List.map_eq_nil_iff, List.range_eq_nil, List.length_reverse]
            intro hcon
            exact hne (List.length_eq_zero.mp hcon)

theorem load_lines_annotations_ok (recs : List ObjRecord) (x y : List ℚ) (ps snap : ℚ)
    (hx : x ≠ []) (hy : y ≠ []) :
    load_lines_annotations recs x y ps snap = Except.ok (recs.map (fun line =>
      LineString.mk (List.zip
        (coord_to_volt (line.line.map Prod.fst) (axv x 0) (axv x (-1)) ps snap false)
        (coord_to_volt (line.line.map Prod.snd) (axv y 0) (axv y (-1)) ps snap true)))) := by
  have hxl : 0 < x.length := List.length_pos.mpr hx
  have hyl : 0 < y.length := List.length_pos.mpr hy
  unfold load_lines_annotations
  apply exceptMapM_congr_ok
  intro line hline
  rw [pyGetE_pos x 0 (by norm_num) (by exact_mod_cast hxl), ok_bind,
      pyGetE_neg x (-1) (by omega) (by norm_num), ok_bind,
      pyGetE_pos y 0 (by norm_num) (by exact_mod_cast hyl), ok_bind,
      pyGetE_neg y (-1) (by omega) (by norm_num), ok_bind]
  rfl

theorem load_charge_annotations_ok (recs : List ObjRecord) (x y : List ℚ) (ps snap : ℚ)
    (hx : x ≠ []) (hy : y ≠ [])
    (hreg : ∀ rec ∈ recs, (ChargeRegime.ofString rec.name).isSome = true) :
    ∃ outs, load_charge_annotations recs x y ps snap = Except.ok outs := by
  have hxl : 0 < x.length := List.length_pos.mpr hx
  have hyl : 0 < y.length := List.length_pos.mpr hy
  unfold load_charge_annotations
  apply exceptMapM_ok_of_forall
  intro rec hrec
  rw [pyGetE_pos x 0 (by norm_num) (by exact_mod_cast hxl), ok_bind,
      pyGetE_neg x (-1) (by omega) (by norm_num), ok_bind,
      pyGetE_pos y 0 (by norm_num) (by exact_mod_cast hyl), ok_bind,
      pyGetE_neg y (-1) (by omega) (by norm_num), ok_bind]
  cases hofs : ChargeRegime.ofString rec.name with
  | none =>
    have hsome := hreg rec hrec
    rw [hofs] at hsome
    cases hsome
  | some reg => exact ⟨_, rfl⟩

theorem ite_ok_exists {c : Prop} [Decidable c] (A : LoadAcc) (B : Except String LoadAcc)
    (hB : ∃ acc2, B = Except.ok acc2) :
    ∃ acc2, (if c then Except.ok A else B) = Except.ok acc2 := by
  by_cases h : c
  · rw [if_pos h]
    exact ⟨A, rfl⟩
  · rw [if_neg h]
    exact hB

theorem processAreas_ok (acc : LoadAcc) (la : Bool) (objects : List ObjRecord)
    (x y : List ℚ) (ps : ℚ) (base : String) (values : List (List ℚ))
    (tl : Option (List LineString)) (hx : x ≠ []) (hy : y ≠ [])
    (hreg : ∀ o ∈ objects, containsSub o.name "electron" = true →
      (ChargeRegime.ofString o.name).isSome = true) :
    ∃ acc2, processAreas acc la objects x y ps base values tl = Except.ok acc2 := by
  unfold processAreas
  cases la with
  | false => exact ⟨_, rfl⟩
  | true =>
    obtain ⟨outs, houts⟩ := load_charge_annotations_ok
      (objects.filter (fun o => containsSub o.name "electron")) x y ps 1 hx hy
      (fun rec hrec =>
        hreg rec (List.mem_filter.mp hrec).1 (List.mem_filter.mp hrec).2)
    simp only [houts]
    by_cases h0 : outs.length = 0
    · rw [if_pos h0]
      exact ⟨_, rfl⟩
    · rw [if_neg h0]
      exact ⟨_, rfl⟩

theorem processOne_ok (st : Settings) (labels_file : List LabelRecord)
    (single_dot load_lines load_areas : Bool) (wl : Option (List String))
    (acc : LoadAcc) (gf : GridFile)
    (hg2 : 2 ≤ gf.content.length)
    (hgw : ∃ w, 3 ≤ w ∧ ∀ row ∈ gf.content, row.length = w)
    (hreg : ∀ r ∈ labels_file, ∀ p ∈ r.projects, ∀ o ∈ p.annotations.objects,
      containsSub o.name "electron" = true →
      (ChargeRegime.ofString o.name).isSome = true) :
    ∃ acc2, processOne st (labels_file.map (fun r => (r.external_id, r)))
      single_dot load_lines load_areas wl acc gf = Except.ok acc2 := by
  obtain ⟨w, hw3, hrectc⟩ := hgw
  unfold processOne
  cases hwx : whiteListExcludes wl gf.basename with
  | true =>
    simp only [hwx]
    exact ⟨_, rfl⟩
  | false =>
    simp only [hwx]
    cases hrec : dictLookup (labels_file.map (fun r => (r.external_id, r)))
        (gf.basename ++ ".png") with
    | none =>
      simp only [hrec]
      exact ⟨_, rfl⟩
    | some record =>
      simp only [hrec]
      have hrmem : record ∈ labels_file := dictLookup_mem labels_file _ record hrec
      cases hproj : record.projects.find? (fun p => pyUpper p.name = "QDSD") with
      | none =>
        simp only [hproj]
        exact ⟨_, rfl⟩
      | some project =>
        simp only [hproj]
        have hpmem : project ∈ record.projects := List.mem_of_find?_eq_some hproj
        have hregp : ∀ o ∈ project.annotations.objects,
            containsSub o.name "electron" = true →
            (ChargeRegime.ofString o.name).isSome = true :=
          fun o ho hel => hreg record hrmem project hpmem o ho hel
        cases hpix : project.annotations.classifications.find?
            (fun c => c.name = "pixel_size_volt") with
        | none =>
          simp only [hpix]
          exact ⟨_, rfl⟩
        | some ps_class =>
          cases hnd : project.annotations.classifications.find?
              (fun c => c.name = "nb_dot") with
          | none =>
            simp only [hpix, hnd]
            exact ⟨_, rfl⟩
          | some nd_class =>
            simp only [hpix, hnd]
            by_cases hdot : single_dot ≠ (nd_class.radio_answer = "single" : Bool)
            · rw [if_pos hdot]
              exact ⟨_, rfl⟩
            · rw [if_neg hdot]
              obtain ⟨x, y, v, hcsv, hx, hy⟩ :=
                load_interpolated_csv_ok gf.content w hg2 hw3 hrectc
              simp only [hcsv]
              cases load_lines with
              | false =>
                exact processAreas_ok acc load_areas project.annotations.objects x y
                  ps_class.text_answer gf.basename v none hx hy hregp
              | true =>
                obtain ⟨tls, htl⟩ : ∃ tls, load_lines_annotations
                    (project.annotations.objects.filter (fun o =>
                      (if st.load_parasitic_lines
                        then ["line_1", "line_2", "line_parasite"]
                        else ["line_1", "line_2"]).contains o.name))
                    x y ps_class.text_answer 1 = Except.ok tls :=
                  ⟨_, load_lines_annotations_ok _ x y ps_class.text_answer 1 hx hy⟩
                rw [if_pos rfl, htl]
                show ∃ acc2, (if tls.length = 0 then
                    Except.ok { acc with nb_no_label := acc.nb_no_label + 1 }
                  else processAreas acc load_areas project.annotations.objects x y
                    ps_class.text_answer gf.basename v (some tls)) = Except.ok acc2
                exact ite_ok_exists _ _ (processAreas_ok acc load_areas
                  project.annotations.objects x y ps_class.text_answer gf.basename v
                  (some tls) hx hy hregp)

/-- Claim C8 (confirmed).  `load_diagrams` raises (aborting the whole load,
returning no list) exactly when the archive subdirectory keyed by pixel size
and research-group name is absent; with the subdirectory present every skip
condition is non-error control flow, and a run over an empty subdirectory
still returns the empty result without raising.  Hypotheses scope the inputs
to well-formed grid tables and to label files whose *electron-tagged*
annotation names parse as charge regimes — exactly the records
`_load_charge_annotations` feeds to the `ChargeRegime` constructor; line
annotations and other object names are unrestricted. -/
theorem C8_error_iff_missing_dir (st : Settings) (pixel_size : ℚ)
    (research_group : String) (diagrams_zip : List ((ℚ × String) × List GridFile))
    (labels_file : List LabelRecord) (single_dot load_lines load_areas : Bool)
    (white_list : Option (List String))
    (hgrid : ∀ dirEntry ∈ diagrams_zip, ∀ gf ∈ dirEntry.2,
      2 ≤ gf.content.length ∧ ∃ w, 3 ≤ w ∧ ∀ row ∈ gf.content, row.length = w)
    (hreg : ∀ r ∈ labels_file, ∀ p ∈ r.projects, ∀ o ∈ p.annotations.objects,
      containsSub o.name "electron" = true →
      (ChargeRegime.ofString o.name).isSome = true) :
    ((∃ e, load_diagrams st pixel_size research_group diagrams_zip labels_file
        single_dot load_lines load_areas white_list = Except.error e) ↔
      zipLookup diagrams_zip (pixel_size * 1000, research_group) = none) ∧
    (zipLookup diagrams_zip (pixel_size * 1000, research_group) = some [] →
      load_diagrams st pixel_size research_group diagrams_zip labels_file
        single_dot load_lines load_areas white_list =
          Except.ok (LoadAcc.mk [] 0 0 0)) := by
  unfold load_diagrams
  cases hz : zipLookup diagrams_zip (pixel_size * 1000, research_group) with
  | none =>
    refine ⟨⟨fun _ => rfl, fun _ => ⟨_, rfl⟩⟩, ?_⟩
    intro hcon
    cases hcon
  | some files =>
    obtain ⟨p, hpmem, hpfiles⟩ := zipLookup_mem diagrams_zip _ files hz
    have hok : ∃ accf, exceptFoldl
        (processOne st (labels_file.map (fun r => (r.external_id, r)))
          single_dot load_lines load_areas white_list)
        (LoadAcc.mk [] 0 0 0) files = Except.ok accf := by
      apply exceptFoldl_ok_of_forall
      intro b gf hgf
      have hg := hgrid p hpmem gf (hpfiles ▸ hgf)
      exact processOne_ok st labels_file single_dot load_lines load_areas white_list
        b gf hg.1 hg.2 hreg
    obtain ⟨accf, haccf⟩ := hok
    constructor
    · constructor
      · intro hcontra
        obtain ⟨e, he⟩ := hcontra
        have he2 : exceptFoldl
            (processOne st (labels_file.map (fun r => (r.external_id, r)))
              single_dot load_lines load_areas white_list)
            (LoadAcc.mk [] 0 0 0) files = Except.error e := he
        rw [haccf] at he2
        cases he2
      · intro hcon
        cases hcon
    · intro hfe
      injection hfe with hfe2
      subst hfe2
      rfl

/-- Concrete instance of C8, with a label file that carries a `line_1`
annotation (whose name is not a charge-regime name) alongside an
electron-tagged one: an archive without the requested subdirectory makes the
load raise, and one whose subdirectory is present but empty loads the empty
result without raising. -/
theorem C8_error_iff_missing_dir_witness :
    load_diagrams stOff 1 "g" [] [recLines] true true true none =
      Except.error "ValueError: Folder not found in the zip file" ∧
    load_diagrams stOff 1 "g" [((1000, "g"), [])] [recLines] true true true none =
      Except.ok (LoadAcc.mk [] 0 0 0) := by
  constructor
  · rfl
  · refine (C8_error_iff_missing_dir stOff 1 "g" [((1000, "g"), [])] [recLines]
      true true true none (by simp) (by decide)).2 ?_
    norm_num [zipLookup]

end DiagramOfflineModel
